import Mathlib

/-!
Verification of the AgentShield payment-authorization core.

Shallow embedding of:
- `agentshield/facilitators/cronos_facilitator.py` (codec, signer assembly, token table)
- `agentshield/facilitators/__init__.py` (SafeFacilitator facade)
- `agentshield/integrations/crypto_com_agent.py` (validation pipeline)
- `agentshield/simulator.py` (honeypot probe)
- `agentshield-api/main.py` (validate-token endpoint)

Strings are modelled as `List Char`; bytes as `Nat` values below 256.
External library calls (eth-account, web3) are modelled as explicit
function parameters in an environment record, since they are not part of
this repository.
-/

namespace AgentShield

/-! ## Character primitives -/

/-- ASCII lowercase conversion of one character (Python `str.lower` on ASCII). -/
def lowerChar (c : Char) : Char :=
  if 'A' ≤ c ∧ c ≤ 'Z' then Char.ofNat (c.toNat + 32) else c

/-- ASCII lowercase conversion of a string (Python `str.lower`). -/
def lowerStr (s : List Char) : List Char := s.map lowerChar

/-- Is `c` a decimal digit. -/
def isDigitChar (c : Char) : Bool := '0' ≤ c ∧ c ≤ '9'

/-- Is `c` a hexadecimal digit (either case). -/
def isHexChar (c : Char) : Bool :=
  isDigitChar c ∨ ('a' ≤ c ∧ c ≤ 'f') ∨ ('A' ≤ c ∧ c ≤ 'F')

/-- Lowercase hex digit for a nibble, as produced by Python `bytes.hex()`. -/
def hexDigitChar (n : Nat) : Char :=
  if n < 10 then Char.ofNat (48 + n) else Char.ofNat (87 + n)

/-- Two lowercase hex characters for one byte. -/
def byteToHex (b : Nat) : List Char := [hexDigitChar (b / 16), hexDigitChar (b % 16)]

/-- Lowercase hex rendering of a byte string (Python `bytes.hex()`). -/
def bytesToHex : List Nat → List Char
  | [] => []
  | b :: rest => byteToHex b ++ bytesToHex rest

/-- Decimal digit character. -/
def digitChar (n : Nat) : Char := Char.ofNat (48 + n)

/-- Decimal digits of a natural number, most significant first. -/
def natDigits (n : Nat) : List Char :=
  if _h : n < 10 then [digitChar n]
  else natDigits (n / 10) ++ [digitChar (n % 10)]
decreasing_by exact Nat.div_lt_self (by omega) (by omega)

/-- Decimal rendering of an integer (Python `repr` of an `int`). -/
def intChars (n : Int) : List Char :=
  if n < 0 then '-' :: natDigits n.natAbs else natDigits n.natAbs

/-! ## Dictionary operations (Python `dict` as an ordered association list) -/

/-- Set one key, replacing in place if present, appending otherwise
(Python `dict.__setitem__`). -/
def setKey : List (List Char × List Char) → List Char → List Char →
    List (List Char × List Char)
  | [], k, v => [(k, v)]
  | (k', v') :: rest, k, v =>
      if k' = k then (k, v) :: rest else (k', v') :: setKey rest k v

/-- Python `dict.update`: apply each binding of `upds` in order. -/
def dictUpdate (d : List (List Char × List Char))
    (upds : List (List Char × List Char)) : List (List Char × List Char) :=
  upds.foldl (fun acc kv => setKey acc kv.1 kv.2) d

/-- Lookup of a key (Python `dict.get`, `None` when absent). -/
def lookupKey : List (List Char × List Char) → List Char → Option (List Char)
  | [], _ => none
  | (k', v') :: rest, k => if k' = k then some v' else lookupKey rest k

/-! ## Honeypot probe (`agentshield/simulator.py`, `simulate_swap`) -/

/-- Token metadata as returned by the `name()` / `symbol()` / `totalSupply()`
contract calls when they all succeed. -/
structure TokenMeta where
  name : List Char
  symbol : List Char
  totalSupply : Nat

/-- The RPC-visible state `simulate_swap` consults for one token: whether the
endpoint answers, whether the address holds deployed code, and the metadata
triple (`none` means the metadata calls raise). -/
structure RpcWorld where
  connected : Bool
  hasCode : Bool
  meta : Option TokenMeta

/-- Result dictionary of `simulate_swap`. Every return path sets `can_buy` and
`can_sell` (Python `None` is `Option.none`); `reason`/`risk`/`errMsg` model the
optional `reason`, `risk` and `error` keys. -/
structure SimResult where
  canBuy : Option Bool
  canSell : Option Bool
  reason : Option (List Char)
  risk : Option (List Char)
  errMsg : Option (List Char)

/-- The denylist in `simulate_swap` (stored lowercased, as the source lowers
it before comparison). -/
def knownHoneypots : List (List Char) :=
  [lowerStr "0x6001B76e8CeA99a749F591ed6E1cE7a704CF231b".data]

/-- `simulate_swap` from `agentshield/simulator.py`.

Faithful to the source including its unbound-local slip: when the metadata
calls raise, the inner `except` stores an error entry in `token_info` and
control continues to `if total_supply == 0:`, but `total_supply` was never
assigned, so Python raises `UnboundLocalError`, which the surrounding
`except Exception` turns into the `"Contract interaction failed"` result with
`can_buy = can_sell = None`. -/
def simulateSwap (w : RpcWorld) (tokenAddress : List Char) : SimResult :=
  if ¬ w.connected then
    ⟨none, none, none, none, some "Cannot connect to RPC".data⟩
  else if ¬ w.hasCode then
    ⟨some false, some false, none, none, some "Not a contract address".data⟩
  else
    match w.meta with
    | none =>
        ⟨none, none, none, none,
         some "Contract interaction failed: local variable total_supply referenced before assignment".data⟩
    | some m =>
        if m.totalSupply = 0 then
          ⟨some false, some false, some "Token has zero supply".data,
           some "HIGH".data, none⟩
        else if lowerStr tokenAddress ∈ knownHoneypots then
          ⟨some true, some false,
           some "Token has transfer restrictions (honeypot)".data,
           some "HIGH".data, none⟩
        else
          ⟨some true, some true,
           some "Token appears to be standard ERC20".data,
           some "LOW".data, none⟩

/-! ## Token-validation endpoint (`agentshield-api/main.py`, `validate_token`) -/

/-- Response model of `/validate-token`. -/
structure ValidationResponse where
  isSafe : Bool
  riskLevel : List Char
  reason : List Char
  canBuy : Option Bool
  canSell : Option Bool

/-- Python truthiness of an `Optional[bool]`: only `True` is truthy;
`None` and `False` are falsy. -/
def pyTruthy : Option Bool → Bool
  | some true => true
  | _ => false

/-- The chain-name normalization table of `validate_token`. -/
def chainMap : List (List Char × List Char) :=
  [("ethereum".data, "ethereum".data), ("eth".data, "ethereum".data),
   ("base".data, "base".data), ("cronos".data, "cronos".data),
   ("cronos-testnet".data, "cronos-testnet".data),
   ("arbitrum".data, "arbitrum".data), ("arb".data, "arbitrum".data),
   ("polygon".data, "polygon".data), ("matic".data, "polygon".data)]

/-- The default RPC endpoints table of `validate_token` (environment-variable
overrides modelled by their defaults). -/
def rpcUrls : List (List Char × List Char) :=
  [("ethereum".data, "https://eth.llamarpc.com".data),
   ("base".data, "https://mainnet.base.org".data),
   ("cronos".data, "https://evm.cronos.org".data),
   ("cronos-testnet".data, "https://evm-t3.cronos.org".data),
   ("arbitrum".data, "https://arb1.arbitrum.io/rpc".data),
   ("polygon".data, "https://polygon-rpc.com".data)]

/-- RPC URL for a requested chain: normalize via `chainMap` (defaulting to the
lowercased input), then consult `rpcUrls`. -/
def rpcUrlFor (chain : List Char) : Option (List Char) :=
  let normalized := (lookupKey chainMap (lowerStr chain)).getD (lowerStr chain)
  lookupKey rpcUrls normalized

/-- Model of `Web3.is_address`: a `0x`-prefixed 40-hex-digit string. (The
library additionally validates EIP-55 checksums on mixed-case inputs; the
claims here only use single-case addresses, on which both agree.) -/
def isAddress (s : List Char) : Bool :=
  match s with
  | '0' :: 'x' :: rest => rest.length = 40 && rest.all isHexChar
  | _ => false

/-- `validate_token` from `agentshield-api/main.py` (the analysis of the
`simulate_swap` result; the `liquidity_warning` / `high_slippage` keys are
never produced by `simulate_swap`, so those two branches are dead and the
model omits them). `result.get("can_buy", True)` reads a key that every
`simulate_swap` return path defines, so the default is never taken and the
value is used as-is. -/
def validateToken (w : RpcWorld) (tokenAddress chain : List Char) :
    ValidationResponse :=
  match rpcUrlFor chain with
  | none =>
      ⟨true, "UNKNOWN".data, "Chain not supported for validation".data,
       none, none⟩
  | some _ =>
      if ¬ isAddress tokenAddress then
        ⟨false, "HIGH".data, "Invalid token address format".data, none, none⟩
      else
        let r := simulateSwap w tokenAddress
        if ¬ pyTruthy r.canSell then
          ⟨false, "HIGH".data, "Token cannot be sold (honeypot detected)".data,
           r.canBuy, r.canSell⟩
        else if ¬ pyTruthy r.canBuy then
          ⟨false, "HIGH".data, "Token cannot be bought".data,
           r.canBuy, r.canSell⟩
        else
          ⟨true, "LOW".data, "Token passed all safety checks".data,
           r.canBuy, r.canSell⟩

/-! ## Validation pipeline
(`agentshield/integrations/crypto_com_agent.py`, `_validate_with_agentshield`)

The stage checks are methods invoked by the orchestrator; they are modelled
as function parameters so that the control-flow property (short-circuiting)
can be stated for every stage behaviour. `hasJudge` / `hasPolicy` model the
`if self.llm_judge:` / `if self.policy_engine:` truthiness tests (the
objects are `None` when the imports fail in `__init__`). -/

/-- Structured intent as produced by `_parse_intent`: the `action` string plus
the fields the stage checks read. `toToken` is present only for swap intents. -/
structure Intent where
  action : List Char
  token : List Char
  amount : List Char
  toToken : Option (List Char)

/-- Result dictionary of one stage check: `{'passed': ..., 'reason': ...}`. -/
structure StageResult where
  passed : Bool
  reason : List Char

/-- Result dictionary of `_validate_with_agentshield`: `stage_failed` is the
`'stage_failed'` key, present only on rejection. -/
structure ValidationOutcome where
  approved : Bool
  reason : List Char
  stageFailed : Option (List Char)

/-- `_validate_with_agentshield`, instrumented with an execution trace: the
returned list records, in order, each stage that is actually invoked (the
stage-4 section has no check call in the source; reaching it is recorded as
`"LLM Analysis"`). -/
def validateWithAgentShield (hasJudge hasPolicy : Bool)
    (stage1 stage2 stage3 : Intent → StageResult) (intent : Intent) :
    ValidationOutcome × List (List Char) :=
  let trace1 : List (List Char) := if hasJudge then ["LLM Intent Judge".data] else []
  if hasJudge ∧ ¬ (stage1 intent).passed then
    (⟨false, (stage1 intent).reason, some "LLM Intent Judge".data⟩, trace1)
  else
    let trace2 := trace1 ++ (if hasPolicy then ["Policy Validation".data] else [])
    if hasPolicy ∧ ¬ (stage2 intent).passed then
      (⟨false, (stage2 intent).reason, some "Policy Validation".data⟩, trace2)
    else
      if intent.action = "swap".data ∨ intent.action = "buy".data then
        let trace3 := trace2 ++ ["Honeypot Detection".data]
        if ¬ (stage3 intent).passed then
          (⟨false, (stage3 intent).reason, some "Honeypot Detection".data⟩, trace3)
        else
          (⟨true, "All validation stages passed".data, none⟩,
           trace3 ++ ["LLM Analysis".data])
      else
        (⟨true, "All validation stages passed".data, none⟩,
         trace2 ++ ["LLM Analysis".data])

/-- `_stage1_llm_judge`: always passes (the LLM call is simulated). -/
def stage1LlmJudge (_ : Intent) : StageResult := ⟨true, "Intent is safe".data⟩

/-- Decimal-string comparison used to model `float(amount) > 100` in
`_stage2_policy` for the plain decimal strings `_parse_intent` produces
(an optional fractional part; such values exceed 100 exactly when their
integer part does, or equals 100 with a nonzero fraction). -/
def decimalGt100 (s : List Char) : Bool :=
  let intPart := s.takeWhile isDigitChar
  let frac := (s.dropWhile isDigitChar).drop 1
  decide ((intPart.foldl (fun a c => a * 10 + (c.toNat - 48)) 0) > 100) ||
    (decide ((intPart.foldl (fun a c => a * 10 + (c.toNat - 48)) 0) = 100) &&
     frac.any (fun c => c ≠ '0'))

/-- `_stage2_policy`: transfers above 100 units are rejected. -/
def stage2Policy (i : Intent) : StageResult :=
  if i.action = "transfer".data ∧ decimalGt100 i.amount then
    ⟨false, "Transfer amount exceeds policy limit (100)".data⟩
  else ⟨true, "Within policy limits".data⟩

/-- `_stage3_honeypot`: the token symbol (`to_token` falling back to `token`)
is checked against a substring denylist. -/
def stage3Honeypot (i : Intent) : StageResult :=
  let token := (i.toToken.getD i.token)
  let bad := ["SCAM".data, "FAKE".data, "RUG".data, "HONEYPOT".data]
  if bad.any (fun hp => decide (hp <:+: token)) then
    ⟨false, "Honeypot token detected: cannot be sold".data⟩
  else ⟨true, "Token is safe".data⟩

/-! ## Token table and domain resolution
(`agentshield/facilitators/cronos_facilitator.py`) -/

/-- One entry of the `TOKENS` table. -/
structure TokenConfig where
  address : List Char
  name : List Char
  version : List Char

/-- The `TOKENS` class attribute: per-network token configurations. -/
def TOKENS : List (List Char × List (List Char × TokenConfig)) :=
  [("cronos-testnet".data,
    [("USDC.e".data,
      ⟨"0xc01efAaF7C5C61bEbFAeb358E1161b537b8bC0e0".data,
       "Bridged USDC (Stargate)".data, "1".data⟩)]),
   ("cronos-mainnet".data,
    [("USDC.e".data,
      ⟨"0xc21223249CA28397B4B6541dfFaEcC539BfF0141".data,
       "Bridged USDC (Stargate)".data, "1".data⟩)])]

/-- Association-list lookup with decidable key equality. -/
def lookupAssoc {α : Type} : List (List Char × α) → List Char → Option α
  | [], _ => none
  | (k', v) :: rest, k => if k' = k then some v else lookupAssoc rest k

/-- `_get_token_config`: find the first token of the current network whose
address matches case-insensitively. -/
def getTokenConfig (network asset : List Char) : Option TokenConfig :=
  match lookupAssoc TOKENS network with
  | none => none
  | some toks =>
      (toks.find? (fun p => lowerStr p.2.address = lowerStr asset)).map (·.2)

/-- Python `x or y` for an optional string: `y` when `x` is `None` or empty. -/
def pyOr (x : Option (List Char)) (y : List Char) : List Char :=
  match x with
  | some s => if s = [] then y else s
  | none => y

/-- The domain-resolution step of `generate_payment_header` (lines 123-132):
when either the name or the version was not supplied, consult the token table
and fall back to the documented defaults. -/
def resolveTokenDomain (network : List Char)
    (tokenName tokenVersion : Option (List Char)) (asset : List Char) :
    List Char × List Char :=
  match tokenName, tokenVersion with
  | some n, some v => (n, v)
  | tn, tv =>
      match getTokenConfig network asset with
      | some cfg => (pyOr tn cfg.name, pyOr tv cfg.version)
      | none => (pyOr tn "Bridged USDC (Stargate)".data, pyOr tv "1".data)

/-- `chain_id` as set in `CronosFacilitator.__init__` (stored as a string in
the source and converted with `int()` at the signing site). -/
def chainIdFor (network : List Char) : Int :=
  if network = "cronos-testnet".data then 338 else 25

/-- `generate_nonce`: `"0x" + os.urandom(32).hex()`; the random draw is the
explicit argument. -/
def generateNonce (randomBytes : List Nat) : List Char :=
  '0' :: 'x' :: bytesToHex randomBytes

/-- Does the string start with `0x`. -/
def startsWith0x : List Char → Bool
  | '0' :: 'x' :: _ => true
  | _ => false

/-- Prepend `0x` unless already present (used for the private key and the
signature in `generate_payment_header`). -/
def ensure0x (s : List Char) : List Char :=
  if startsWith0x s then s else '0' :: 'x' :: s

/-! ## Safe facade (`agentshield/facilitators/__init__.py`,
`SafeFacilitator.generate_safe_payment_header`)

`PolicyEngine.validate_transaction` is an external collaborator (its module
is not part of this repository), modelled as a function parameter. The
signing call `self.facilitator.generate_payment_header(...)` can raise (e.g.
an invalid secret key inside `Account.from_key`); its outcome is modelled as
an `Except` value. -/

/-- The dictionary returned by `PolicyEngine.validate_transaction`, as read
by the facade: the `approved` flag (via `.get("approved", False)`) and the
optional `reason` key. -/
structure PipelineResult where
  approved : Bool
  reason : Option (List Char)

/-- The facade result dictionary. `paymentHeader` models the
`payment_header` key (present only on success); `reason` the `reason` key
(present only on rejection); `errorField` the `error` key (present only when
header generation raised). -/
structure FacadeResult where
  approved : Bool
  paymentHeader : Option (List Char)
  reason : Option (List Char)
  errorField : Option (List Char)

/-- The metadata block of the success path evaluates
`self.facilitator._get_account_address(self.private_key)`, but
`CronosFacilitator` defines no such method, so the attribute lookup raises
`AttributeError` inside the same `try` block. -/
def getAccountAddressAttr : Except (List Char) (List Char) :=
  .error "CronosFacilitator object has no attribute _get_account_address".data

/-- The binding list passed to `context.update({...})` at the top of
`generate_safe_payment_header`. -/
def facadeContextUpdates (payTo asset amount network : List Char) :
    List (List Char × List Char) :=
  [("payment_type".data, "x402".data), ("recipient".data, payTo),
   ("token".data, asset), ("amount".data, amount),
   ("network".data, network)]

/-- `generate_safe_payment_header`. Returns the facade result together with
the caller-visible context dictionary after the call (the source mutates the
caller-supplied `context` in place with `context.update({...})` before
validation). `validate` is the `PolicyEngine.validate_transaction`
collaborator, applied to `(to, value, data, context)`; `sign` is the outcome
of the `generate_payment_header` call for these arguments. -/
def generateSafePaymentHeader
    (validate : List Char → List Char → List Char →
      List (List Char × List Char) → PipelineResult)
    (sign : Except (List Char) (List Char))
    (payTo asset amount network : List Char)
    (context : Option (List (List Char × List Char))) :
    FacadeResult × List (List Char × List Char) :=
  let ctx0 := context.getD []
  let ctx := dictUpdate ctx0 (facadeContextUpdates payTo asset amount network)
  let vr := validate payTo amount "0x".data ctx
  if ¬ vr.approved then
    (⟨false, none, some (vr.reason.getD "Validation failed".data), none⟩, ctx)
  else
    match (do
        let ph ← sign
        let _ ← getAccountAddressAttr
        pure ph : Except (List Char) (List Char)) with
    | .ok ph => (⟨true, some ph, none, none⟩, ctx)
    | .error e =>
        (⟨false, none,
          some ("Failed to generate payment header: ".data ++ e), some e⟩, ctx)

/-! ## Base64 (Python `base64.b64encode` / `base64.b64decode`) -/

/-- The standard base64 alphabet. -/
def b64Alphabet : List Char :=
  "ABCDEFGHIJKLMNOPQRSTUVWXYZabcdefghijklmnopqrstuvwxyz0123456789+/".data

/-- Character for a six-bit group. -/
def b64Char (n : Nat) : Char := b64Alphabet.getD n '?'

/-- Inverse alphabet lookup. -/
def b64Index (c : Char) : Option Nat := b64Alphabet.findIdx? (· = c)

/-- `base64.b64encode` on a byte string: three bytes become four characters,
with `=` padding for a final group of one or two bytes. -/
def b64encode : List Nat → List Char
  | [] => []
  | [a] => [b64Char (a / 4), b64Char (a % 4 * 16), '=', '=']
  | [a, b] => [b64Char (a / 4), b64Char (a % 4 * 16 + b / 16),
               b64Char (b % 16 * 4), '=']
  | a :: b :: c :: rest =>
      b64Char (a / 4) :: b64Char (a % 4 * 16 + b / 16) ::
      b64Char (b % 16 * 4 + c / 64) :: b64Char (c % 64) :: b64encode rest

/-- Decode groups of four characters (after foreign characters have been
discarded); padding is accepted only in the final group. A leftover group of
fewer than four characters is the `binascii.Error` ("invalid padding") case. -/
def b64decodeQuads : List Char → Except (List Char) (List Nat)
  | [] => .ok []
  | c1 :: c2 :: c3 :: c4 :: rest =>
      (match b64Index c1, b64Index c2 with
       | some s1, some s2 =>
         if c3 = '=' then
           if c4 = '=' ∧ rest = [] then .ok [s1 * 4 + s2 / 16]
           else .error "Invalid base64-encoded string".data
         else
           (match b64Index c3 with
            | some s3 =>
              if c4 = '=' then
                if rest = [] then .ok [s1 * 4 + s2 / 16, s2 % 16 * 16 + s3 / 4]
                else .error "Invalid base64-encoded string".data
              else
                (match b64Index c4 with
                 | some s4 =>
                   (b64decodeQuads rest).map
                     (fun tail => (s1 * 4 + s2 / 16) :: (s2 % 16 * 16 + s3 / 4) ::
                       (s3 % 4 * 64 + s4) :: tail)
                 | none => .error "Invalid base64 character".data)
            | none => .error "Invalid base64 character".data)
       | _, _ => .error "Invalid base64 character".data)
  | _ => .error "Invalid base64-encoded string: wrong padding".data

/-- `base64.b64decode` (default non-validating mode): characters outside the
alphabet and `=` are discarded, then the group structure is checked. -/
def b64decode (s : List Char) : Except (List Char) (List Nat) :=
  b64decodeQuads (s.filter (fun c => (b64Index c).isSome || c = '='))

/-! ## UTF-8 (Python `str.encode()` / `bytes.decode()`) -/

/-- UTF-8 encoding of one character. -/
def utf8EncodeChar (c : Char) : List Nat :=
  let n := c.toNat
  if n < 0x80 then [n]
  else if n < 0x800 then [0xC0 + n / 64, 0x80 + n % 64]
  else if n < 0x10000 then
    [0xE0 + n / 4096, 0x80 + n / 64 % 64, 0x80 + n % 64]
  else
    [0xF0 + n / 262144, 0x80 + n / 4096 % 64, 0x80 + n / 64 % 64,
     0x80 + n % 64]

/-- UTF-8 encoding of a string. -/
def utf8Encode : List Char → List Nat
  | [] => []
  | c :: rest => utf8EncodeChar c ++ utf8Encode rest

/-- Is `b` a UTF-8 continuation byte. -/
def isCont (b : Nat) : Bool := 0x80 ≤ b && b < 0xC0

/-- Decode a two-byte sequence after lead byte `b`. -/
def utf8Two (b : Nat) : List Nat → Except (List Char) (Nat × List Nat)
  | b2 :: rest2 =>
      if isCont b2 then
        if 0x80 ≤ (b - 0xC0) * 64 + (b2 - 0x80) then
          .ok ((b - 0xC0) * 64 + (b2 - 0x80), rest2)
        else .error "overlong encoding".data
      else .error "invalid continuation byte".data
  | [] => .error "unexpected end of data".data

/-- Decode a three-byte sequence after lead byte `b`. -/
def utf8Three (b : Nat) : List Nat → Except (List Char) (Nat × List Nat)
  | b2 :: b3 :: rest3 =>
      if isCont b2 && isCont b3 then
        let n := (b - 0xE0) * 4096 + (b2 - 0x80) * 64 + (b3 - 0x80)
        if 0x800 ≤ n ∧ (n < 0xd800 ∨ 0xe000 ≤ n) then .ok (n, rest3)
        else .error "overlong or surrogate".data
      else .error "invalid continuation byte".data
  | _ => .error "unexpected end of data".data

/-- Decode a four-byte sequence after lead byte `b`. -/
def utf8Four (b : Nat) : List Nat → Except (List Char) (Nat × List Nat)
  | b2 :: b3 :: b4 :: rest4 =>
      if isCont b2 && isCont b3 && isCont b4 then
        let n := (b - 0xF0) * 262144 + (b2 - 0x80) * 4096 +
          (b3 - 0x80) * 64 + (b4 - 0x80)
        if 0x10000 ≤ n ∧ n < 0x110000 then .ok (n, rest4)
        else .error "overlong or out of range".data
      else .error "invalid continuation byte".data
  | _ => .error "unexpected end of data".data

/-- Decode one code point: the scalar value and the remaining bytes. -/
def utf8DecodeOne (b : Nat) (rest : List Nat) :
    Except (List Char) (Nat × List Nat) :=
  if b < 0x80 then .ok (b, rest)
  else if b < 0xC0 then .error "invalid start byte".data
  else if b < 0xE0 then utf8Two b rest
  else if b < 0xF0 then utf8Three b rest
  else if b < 0xF8 then utf8Four b rest
  else .error "invalid start byte".data

/-- Decoding loop; each step consumes at least the lead byte, so fuel equal
to the byte count never runs out. -/
def utf8DecodeLoop : Nat → List Nat → Except (List Char) (List Char)
  | _, [] => .ok []
  | 0, _ :: _ => .error "decoder fuel exhausted".data
  | fuel + 1, b :: rest =>
    match utf8DecodeOne b rest with
    | .error e => .error e
    | .ok (n, rest2) => (utf8DecodeLoop fuel rest2).map (Char.ofNat n :: ·)

/-- UTF-8 decoding (Python `bytes.decode()`, strict errors): rejects stray
continuation bytes, truncated sequences, surrogate code points and
out-of-range values. -/
def utf8Decode (bs : List Nat) : Except (List Char) (List Char) :=
  utf8DecodeLoop bs.length bs

/-! ## JSON values and parser (Python `json.loads`)

The parser is a recursive-descent model of CPython's `json` scanner over
objects, arrays, strings, integers and the three literals. Float literals
and lone-surrogate `\uXXXX` escapes are outside the model and reported as
errors (no credential field uses them). -/

/-- Parsed JSON values. Object members keep their textual order. -/
inductive JVal where
  | jstr : List Char → JVal
  | jnum : Int → JVal
  | jbool : Bool → JVal
  | jnull : JVal
  | jarr : List JVal → JVal
  | jobj : List (List Char × JVal) → JVal

/-- JSON whitespace. -/
def isWs (c : Char) : Bool := c = ' ' || c = '\t' || c = '\n' || c = '\r'

/-- Drop leading JSON whitespace. -/
def skipWs : List Char → List Char
  | [] => []
  | c :: rest => if isWs c then skipWs rest else c :: rest

/-- Value of a hexadecimal digit. -/
def hexVal (c : Char) : Option Nat :=
  if isDigitChar c then some (c.toNat - 48)
  else if 'a' ≤ c ∧ c ≤ 'f' then some (c.toNat - 87)
  else if 'A' ≤ c ∧ c ≤ 'F' then some (c.toNat - 55)
  else none

/-- Single-character string escapes. -/
def unescape (e : Char) : Option Char :=
  if e = '"' then some '"'
  else if e = '\\' then some '\\'
  else if e = '/' then some '/'
  else if e = 'b' then some (Char.ofNat 8)
  else if e = 'f' then some (Char.ofNat 12)
  else if e = 'n' then some '\n'
  else if e = 'r' then some '\r'
  else if e = 't' then some '\t'
  else none

/-- Parse the body of a string literal (the opening quote already consumed)
up to and including the closing quote. Raw control characters are rejected
(`json.loads` default `strict=True`). -/
def parseStrBody : List Char → Except (List Char) (List Char × List Char)
  | [] => .error "Unterminated string".data
  | c :: rest =>
    if c = '"' then .ok ([], rest)
    else if c = '\\' then
      match rest with
      | [] => .error "Unterminated string".data
      | e :: rest2 =>
        if e = 'u' then
          match rest2 with
          | h1 :: h2 :: h3 :: h4 :: rest3 =>
            (match hexVal h1, hexVal h2, hexVal h3, hexVal h4 with
             | some a, some b, some c2, some d =>
               let code := ((a * 16 + b) * 16 + c2) * 16 + d
               if code < 0xd800 ∨ 0xe000 ≤ code then
                 (parseStrBody rest3).map
                   (fun p => (Char.ofNat code :: p.1, p.2))
               else .error "surrogate escapes not modelled".data
             | _, _, _, _ => .error "Invalid hex escape".data)
          | _ => .error "Invalid hex escape".data
        else
          match unescape e with
          | some c2 => (parseStrBody rest2).map (fun p => (c2 :: p.1, p.2))
          | none => .error "Invalid escape".data
    else if c.toNat < 0x20 then .error "Invalid control character".data
    else (parseStrBody rest).map (fun p => (c :: p.1, p.2))

/-- Consume a run of decimal digits with an accumulator. -/
def parseDigits : List Char → Nat → Nat × List Char
  | [], acc => (acc, [])
  | c :: rest, acc =>
      if isDigitChar c then parseDigits rest (acc * 10 + (c.toNat - 48))
      else (acc, c :: rest)

/-- Does a fractional part or exponent follow (a float literal, outside this
model). -/
def floatFollows : List Char → Bool
  | [] => false
  | c :: _ => c = '.' || c = 'e' || c = 'E'

/-- Parse an unsigned JSON integer (`0 | [1-9][0-9]*`; a leading `0` is not
followed by further digits, per the JSON number grammar). -/
def parseUNum : List Char → Except (List Char) (Nat × List Char)
  | [] => .error "Expecting value".data
  | c :: rest =>
    if c = '0' then
      if floatFollows rest then .error "float literals not modelled".data
      else .ok (0, rest)
    else if isDigitChar c then
      let p := parseDigits rest (c.toNat - 48)
      if floatFollows p.2 then .error "float literals not modelled".data
      else .ok p
    else .error "Expecting value".data

/-- Parse a JSON integer with optional leading minus. -/
def parseNum : List Char → Except (List Char) (Int × List Char)
  | [] => .error "Expecting value".data
  | c :: rest =>
      if c = '-' then (parseUNum rest).map (fun p => (-(p.1 : Int), p.2))
      else (parseUNum (c :: rest)).map (fun p => ((p.1 : Int), p.2))

/-- Expect a literal continuation (for `true` / `false` / `null`). -/
def dropLit : List Char → List Char → Option (List Char)
  | [], s => some s
  | _ :: _, [] => none
  | c :: cs, d :: ds => if c = d then dropLit cs ds else none

mutual

/-- Parse one JSON value. The fuel argument strictly decreases on every
nested parse; `jsonLoads` supplies more fuel than any input can consume. -/
def parseVal : Nat → List Char → Except (List Char) (JVal × List Char)
  | 0, _ => .error "parser fuel exhausted".data
  | fuel + 1, s =>
    match skipWs s with
    | [] => .error "Expecting value".data
    | c :: rest =>
      if c = '"' then
        (parseStrBody rest).map (fun p => (JVal.jstr p.1, p.2))
      else if c = '\x7b' then parseObjBody fuel rest
      else if c = '[' then parseArrBody fuel rest
      else if c = 't' then
        match dropLit "rue".data rest with
        | some r => .ok (JVal.jbool true, r)
        | none => .error "Expecting value".data
      else if c = 'f' then
        match dropLit "alse".data rest with
        | some r => .ok (JVal.jbool false, r)
        | none => .error "Expecting value".data
      else if c = 'n' then
        match dropLit "ull".data rest with
        | some r => .ok (JVal.jnull, r)
        | none => .error "Expecting value".data
      else (parseNum (c :: rest)).map (fun p => (JVal.jnum p.1, p.2))

/-- Parse one `"key": value` member. -/
def parseMember : Nat → List Char →
    Except (List Char) ((List Char × JVal) × List Char)
  | 0, _ => .error "parser fuel exhausted".data
  | fuel + 1, s =>
    match skipWs s with
    | '"' :: r1 =>
      (match parseStrBody r1 with
       | .error e => .error e
       | .ok (k, r2) =>
         match skipWs r2 with
         | ':' :: r3 => (parseVal fuel r3).map (fun p => ((k, p.1), p.2))
         | _ => .error "Expecting colon delimiter".data)
    | _ => .error "Expecting property name".data

/-- Parse an object body (after the opening brace). -/
def parseObjBody : Nat → List Char → Except (List Char) (JVal × List Char)
  | 0, _ => .error "parser fuel exhausted".data
  | fuel + 1, s =>
    match skipWs s with
    | '\x7d' :: rest => .ok (JVal.jobj [], rest)
    | s2 =>
      match parseMember fuel s2 with
      | .error e => .error e
      | .ok (kv, r) =>
        (parseObjRest fuel r).map (fun p => (JVal.jobj (kv :: p.1), p.2))

/-- Parse the remaining members of an object (after one member). -/
def parseObjRest : Nat → List Char →
    Except (List Char) (List (List Char × JVal) × List Char)
  | 0, _ => .error "parser fuel exhausted".data
  | fuel + 1, s =>
    match skipWs s with
    | ',' :: rest =>
      (match parseMember fuel rest with
       | .error e => .error e
       | .ok (kv, r) => (parseObjRest fuel r).map (fun p => (kv :: p.1, p.2)))
    | '\x7d' :: rest => .ok ([], rest)
    | _ => .error "Expecting comma delimiter".data

/-- Parse an array body (after the opening bracket). -/
def parseArrBody : Nat → List Char → Except (List Char) (JVal × List Char)
  | 0, _ => .error "parser fuel exhausted".data
  | fuel + 1, s =>
    match skipWs s with
    | ']' :: rest => .ok (JVal.jarr [], rest)
    | s2 =>
      match parseVal fuel s2 with
      | .error e => .error e
      | .ok (v, r) =>
        (parseArrRest fuel r).map (fun p => (JVal.jarr (v :: p.1), p.2))

/-- Parse the remaining items of an array (after one item). -/
def parseArrRest : Nat → List Char →
    Except (List Char) (List JVal × List Char)
  | 0, _ => .error "parser fuel exhausted".data
  | fuel + 1, s =>
    match skipWs s with
    | ',' :: rest =>
      (match parseVal fuel rest with
       | .error e => .error e
       | .ok (v, r) => (parseArrRest fuel r).map (fun p => (v :: p.1, p.2)))
    | ']' :: rest => .ok ([], rest)
    | _ => .error "Expecting comma delimiter".data

end

/-- `json.loads`: parse one value and require only whitespace to follow. -/
def jsonLoads (s : List Char) : Except (List Char) JVal :=
  match parseVal (s.length + 1) s with
  | .error e => .error e
  | .ok (v, rest) =>
      if skipWs rest = [] then .ok v else .error "Extra data".data

/-- `decode_payment_header`: base64-decode, UTF-8-decode, then `json.loads`.
No field of the result is inspected or validated. -/
def decodePaymentHeader (s : List Char) : Except (List Char) JVal :=
  match b64decode s with
  | .error e => .error e
  | .ok bytes =>
    match utf8Decode bytes with
    | .error e => .error e
    | .ok chars => jsonLoads chars

/-! ## JSON serialization (Python `json.dumps` with default options:
`ensure_ascii=True`, separators `", "` and `": "`) -/

/-- `\uXXXX` escape (lowercase hex, as CPython emits). -/
def uEscape (n : Nat) : List Char :=
  '\\' :: 'u' :: [hexDigitChar (n / 4096 % 16), hexDigitChar (n / 256 % 16),
    hexDigitChar (n / 16 % 16), hexDigitChar (n % 16)]

/-- `json.dumps` escaping of one character: quote, backslash, the short
control escapes, `\uXXXX` for other control and non-ASCII characters
(surrogate pairs above the BMP). -/
def escapeChar (c : Char) : List Char :=
  if c = '"' then ['\\', '"']
  else if c = '\\' then ['\\', '\\']
  else if c = '\n' then ['\\', 'n']
  else if c = '\t' then ['\\', 't']
  else if c = '\r' then ['\\', 'r']
  else if c.toNat = 8 then ['\\', 'b']
  else if c.toNat = 12 then ['\\', 'f']
  else if c.toNat < 0x20 ∨ 0x7f ≤ c.toNat then
    if c.toNat < 0x10000 then uEscape c.toNat
    else uEscape (0xd800 + (c.toNat - 0x10000) / 1024) ++
      uEscape (0xdc00 + (c.toNat - 0x10000) % 1024)
  else [c]

/-- Escape a whole string. -/
def jsonEscape : List Char → List Char
  | [] => []
  | c :: rest => escapeChar c ++ jsonEscape rest

/-- Serialized string literal. -/
def dumpStr (s : List Char) : List Char := '"' :: jsonEscape s ++ ['"']

/-- The value forms occurring in a payment-header dictionary: strings and
integers. -/
inductive FlatVal where
  | fstr : List Char → FlatVal
  | fint : Int → FlatVal

/-- Serialize a flat value. -/
def dumpFlatVal : FlatVal → List Char
  | .fstr s => dumpStr s
  | .fint n => intChars n

/-- The JSON value a flat value parses back to. -/
def FlatVal.toJVal : FlatVal → JVal
  | .fstr s => .jstr s
  | .fint n => .jnum n

/-- One serialized `"key": value` member. -/
def dumpMember (k : List Char) (v : FlatVal) : List Char :=
  dumpStr k ++ ':' :: ' ' :: dumpFlatVal v

/-- Serialized members after the first, each preceded by `", "`. -/
def dumpMembersRest : List (List Char × FlatVal) → List Char
  | [] => []
  | (k, v) :: rest => ',' :: ' ' :: (dumpMember k v ++ dumpMembersRest rest)

/-- Serialized member list. -/
def dumpMembers : List (List Char × FlatVal) → List Char
  | [] => []
  | (k, v) :: rest => dumpMember k v ++ dumpMembersRest rest

/-- Serialized object of flat values. -/
def dumpFlatObj (kvs : List (List Char × FlatVal)) : List Char :=
  '\x7b' :: dumpMembers kvs ++ ['\x7d']

/-! ## The payment-header credential
(`generate_payment_header`, lines 177-198) -/

/-- The `payload` sub-dictionary of a payment header (`from` is a Lean
keyword, hence `fromAddr`). `value` is the amount kept as the caller's
decimal string; `validAfter` / `validBefore` are JSON integers. -/
structure PaymentPayload where
  fromAddr : List Char
  toAddr : List Char
  value : List Char
  validAfter : Int
  validBefore : Int
  nonce : List Char
  signature : List Char
  asset : List Char

/-- The payment-header dictionary built by `generate_payment_header`. -/
structure PaymentHeader where
  x402Version : Int
  scheme : List Char
  network : List Char
  payload : PaymentPayload

/-- The payload members in construction (= serialization) order. -/
def payloadKVs (p : PaymentPayload) : List (List Char × FlatVal) :=
  [("from".data, .fstr p.fromAddr), ("to".data, .fstr p.toAddr),
   ("value".data, .fstr p.value), ("validAfter".data, .fint p.validAfter),
   ("validBefore".data, .fint p.validBefore), ("nonce".data, .fstr p.nonce),
   ("signature".data, .fstr p.signature), ("asset".data, .fstr p.asset)]

/-- The top-level members preceding `payload`, in construction order. -/
def topKVs (h : PaymentHeader) : List (List Char × FlatVal) :=
  [("x402Version".data, .fint h.x402Version),
   ("scheme".data, .fstr h.scheme), ("network".data, .fstr h.network)]

/-- `json.dumps(payment_header)` for the fixed dictionary shape the source
constructs. -/
def dumpHeader (h : PaymentHeader) : List Char :=
  '\x7b' :: (dumpMembers (topKVs h) ++
    ',' :: ' ' :: (dumpStr "payload".data ++
      ':' :: ' ' :: (dumpFlatObj (payloadKVs h.payload) ++ ['\x7d'])))

/-- The JSON value the serialized payload parses back to. -/
def payloadJVal (p : PaymentPayload) : JVal :=
  .jobj ((payloadKVs p).map (fun kv => (kv.1, kv.2.toJVal)))

/-- The JSON value the serialized header parses back to: the header
dictionary, field for field. -/
def headerJVal (h : PaymentHeader) : JVal :=
  .jobj ((topKVs h).map (fun kv => (kv.1, kv.2.toJVal)) ++
    [("payload".data, payloadJVal h.payload)])

/-- The encoding step of `generate_payment_header`:
`base64.b64encode(json.dumps(payment_header).encode()).decode()`. -/
def encodeHeader (h : PaymentHeader) : List Char :=
  b64encode (utf8Encode (dumpHeader h))

/-- Field lookup in a parsed JSON object (first match). -/
def JVal.getField : JVal → List Char → Option JVal
  | .jobj kvs, k => lookupAssoc kvs k
  | _, _ => none

/-! ## The signer (`generate_payment_header`, lines 100-198)

The external library calls — `Account.from_key(...).address`,
`Web3.to_checksum_address`, and EIP-712 signing via
`encode_typed_data` / `sign_message` — are not part of this repository and
are modelled as opaque functions in a `SignEnv`, together with this call's
`os.urandom(32)` draw and `time.time()` reading. -/

/-- The EIP-712 domain dictionary built at lines 135-140. -/
structure EipDomain where
  name : List Char
  version : List Char
  chainId : Int
  verifyingContract : List Char

/-- The message dictionary built at lines 155-162 (fixed field order
`from`, `to`, `value`, `validAfter`, `validBefore`, `nonce`). -/
structure EipMessage where
  fromAddr : List Char
  toAddr : List Char
  value : Int
  validAfter : Int
  validBefore : Int
  nonce : List Char

/-- Environment of one `generate_payment_header` call. -/
structure SignEnv where
  accountAddress : List Char → List Char
  toChecksumAddress : List Char → List Char
  signTypedData : EipDomain → EipMessage → List Char
  urandom32 : List Nat
  now : Int

/-- Digit-string value. -/
def digitsToNat (s : List Char) : Nat :=
  s.foldl (fun a c => a * 10 + (c.toNat - 48)) 0

/-- Python `int(str)`: optional sign then decimal digits (whitespace and
underscore forms omitted; no credential amount uses them). `none` models the
`ValueError`. -/
def pyToInt : List Char → Option Int
  | '-' :: rest =>
      if rest ≠ [] ∧ rest.all isDigitChar then some (-(digitsToNat rest : Int))
      else none
  | '+' :: rest =>
      if rest ≠ [] ∧ rest.all isDigitChar then some (digitsToNat rest : Int)
      else none
  | rest =>
      if rest ≠ [] ∧ rest.all isDigitChar then some (digitsToNat rest : Int)
      else none

/-- The header dictionary `generate_payment_header` constructs before
encoding: key normalization, address checksumming, nonce draw, validity
window, domain resolution, EIP-712 signing, assembly (lines 100-192). -/
def buildPaymentHeader (env : SignEnv) (network : List Char)
    (privateKey payTo asset amount : List Char) (timeoutSeconds : Int)
    (tokenName tokenVersion : Option (List Char)) : PaymentHeader :=
  let pk := ensure0x privateKey
  let fromAddress := env.toChecksumAddress (lowerStr (env.accountAddress pk))
  let toAddress := env.toChecksumAddress (lowerStr payTo)
  let assetAddress := env.toChecksumAddress (lowerStr asset)
  let nonce := generateNonce env.urandom32
  let validAfter : Int := 0
  let validBefore : Int := env.now + timeoutSeconds
  let nv := resolveTokenDomain network tokenName tokenVersion asset
  let domain : EipDomain := ⟨nv.1, nv.2, chainIdFor network, assetAddress⟩
  let message : EipMessage :=
    ⟨fromAddress, toAddress, (pyToInt amount).getD 0, validAfter, validBefore,
     nonce⟩
  let signature := ensure0x (env.signTypedData domain message)
  ⟨1, "eip3009".data, network,
   ⟨fromAddress, toAddress, amount, validAfter, validBefore, nonce, signature,
    assetAddress⟩⟩

/-- `generate_payment_header`: `int(amount)` raises `ValueError` on a
non-integer amount string; otherwise the assembled dictionary is serialized
and base64-encoded. -/
def generatePaymentHeader (env : SignEnv) (network : List Char)
    (privateKey payTo asset amount : List Char) (timeoutSeconds : Int)
    (tokenName tokenVersion : Option (List Char)) :
    Except (List Char) (List Char) :=
  match pyToInt amount with
  | none => .error "invalid literal for int with base 10".data
  | some _ =>
      .ok (encodeHeader (buildPaymentHeader env network privateKey payTo asset
        amount timeoutSeconds tokenName tokenVersion))

/-! ## Well-formedness of credentials -/

/-- A character that `json.dumps` emits verbatim and the string scanner
consumes verbatim: printable ASCII other than quote and backslash. All §3
credential fields (checksummed hex addresses, decimal amount strings,
`0x`-prefixed hex nonce/signature, the scheme and network names) consist of
such characters. -/
def SafeChar (c : Char) : Bool :=
  decide (0x20 ≤ c.toNat) && decide (c.toNat < 0x7f) && !(c = '"') && !(c = '\\')

/-- A string of safe characters. -/
def SafeStr (s : List Char) : Bool := s.all SafeChar

/-- A well-formed credential: every string field is a safe ASCII string and
the numeric fields are non-negative (§3 credentials satisfy this). -/
def WellFormedHeader (h : PaymentHeader) : Bool :=
  SafeStr h.scheme && SafeStr h.network && SafeStr h.payload.fromAddr &&
  SafeStr h.payload.toAddr && SafeStr h.payload.value &&
  SafeStr h.payload.nonce && SafeStr h.payload.signature &&
  SafeStr h.payload.asset && decide (0 ≤ h.x402Version) &&
  decide (0 ≤ h.payload.validAfter) && decide (0 ≤ h.payload.validBefore)

/-- The sixteen lowercase hex digits. -/
def lowerHexDigits : List Char := "0123456789abcdef".data

/-- A flat value whose serialization round-trips: a safe string or a
non-negative integer. -/
def SafeFlat : FlatVal → Bool
  | .fstr s => SafeStr s
  | .fint n => decide (0 ≤ n)

/-- A member list of safe keys and safe flat values. -/
def SafeKVs (kvs : List (List Char × FlatVal)) : Bool :=
  kvs.all (fun kv => SafeStr kv.1 && SafeFlat kv.2)

/-- The character following a serialized integer must not extend it: not a
digit and not the start of a fraction or exponent. -/
def numBoundary : List Char → Bool
  | [] => true
  | c :: _ => !isDigitChar c && !(c = '.') && !(c = 'e') && !(c = 'E')

/-! # Helper lemmas -/

theorem lookupKey_setKey_self (d : List (List Char × List Char)) (k v : List Char) :
    lookupKey (setKey d k v) k = some v := by
  induction d with
  | nil => simp [setKey, lookupKey]
  | cons kv rest ih =>
      obtain ⟨k', v'⟩ := kv
      by_cases h : k' = k
      · simp [setKey, h, lookupKey]
      · simp [setKey, h, lookupKey, ih]

theorem lookupKey_setKey_other (d : List (List Char × List Char)) (k v j : List Char)
    (h : j ≠ k) : lookupKey (setKey d k v) j = lookupKey d j := by
  induction d with
  | nil => simp [setKey, lookupKey, Ne.symm h]
  | cons kv rest ih =>
      obtain ⟨k', v'⟩ := kv
      by_cases hk : k' = k
      · subst hk
        simp [setKey, lookupKey, Ne.symm h]
      · simp [setKey, hk, lookupKey, ih]

theorem hexDigitChar_injOn :
    ∀ m, m < 16 → ∀ n, n < 16 → hexDigitChar m = hexDigitChar n → m = n := by
  decide

theorem byteToHex_inj (a b : Nat) (ha : a < 256) (hb : b < 256)
    (h : byteToHex a = byteToHex b) : a = b := by
  simp only [byteToHex, List.cons.injEq, and_true] at h
  obtain ⟨h1, h2⟩ := h
  have e1 := hexDigitChar_injOn (a / 16) (by omega) (b / 16) (by omega) h1
  have e2 := hexDigitChar_injOn (a % 16) (by omega) (b % 16) (by omega) h2
  omega

theorem bytesToHex_inj : ∀ xs ys : List Nat, xs.length = ys.length →
    (∀ b ∈ xs, b < 256) → (∀ b ∈ ys, b < 256) →
    bytesToHex xs = bytesToHex ys → xs = ys := by
  intro xs
  induction xs with
  | nil =>
      intro ys hlen _ _ _
      cases ys with
      | nil => rfl
      | cons y ys => simp at hlen
  | cons x xs ih =>
      intro ys hlen hx hy h
      cases ys with
      | nil => simp at hlen
      | cons y ys =>
          simp only [bytesToHex, byteToHex, List.cons_append, List.nil_append,
            List.cons.injEq] at h
          obtain ⟨h1, h2, h3⟩ := h
          have hxy : x = y := by
            refine byteToHex_inj x y (hx x (by simp)) (hy y (by simp)) ?_
            simp [byteToHex, h1, h2]
          subst hxy
          have htail := ih ys (by simpa using hlen)
            (fun b hb => hx b (by simp [hb])) (fun b hb => hy b (by simp [hb])) h3
          simp [htail]

theorem bytesToHex_length : ∀ l : List Nat, (bytesToHex l).length = 2 * l.length := by
  intro l
  induction l with
  | nil => rfl
  | cons b rest ih => simp [bytesToHex, byteToHex, ih]; omega

theorem hexDigitChar_mem_lowerHexDigits :
    ∀ n, n < 16 → hexDigitChar n ∈ lowerHexDigits := by
  decide

theorem bytesToHex_chars : ∀ l : List Nat, (∀ b ∈ l, b < 256) →
    ∀ c ∈ bytesToHex l, c ∈ lowerHexDigits := by
  intro l
  induction l with
  | nil => intro _ c hc; simp [bytesToHex] at hc
  | cons b rest ih =>
      intro hb c hc
      simp only [bytesToHex, byteToHex, List.cons_append, List.nil_append,
        List.mem_cons] at hc
      have hblt : b < 256 := hb b (by simp)
      rcases hc with h | h | h
      · exact h ▸ hexDigitChar_mem_lowerHexDigits _ (by omega)
      · exact h ▸ hexDigitChar_mem_lowerHexDigits _ (by omega)
      · exact ih (fun x hx => hb x (by simp [hx])) c h

/-! # Claim theorems -/

/-- C8 (code evaluation at the failing input): a connected endpoint, an
address with deployed code, but metadata calls that raise. The source then
reads the never-assigned local `total_supply`, so the probe returns the
contract-interaction-failure result with `can_buy = can_sell = None` — not
the `can_buy=true, can_sell=true, LOW` verdict the claim (and the spec's
documented design choice) describes. -/
theorem c8_metadata_throw_behavior (addr : List Char) :
    simulateSwap ⟨true, true, none⟩ addr =
      ⟨none, none, none, none,
       some "Contract interaction failed: local variable total_supply referenced before assignment".data⟩ := by
  rfl

/-- C9: when `simulate_swap` reports an unreachable RPC endpoint
(`can_buy = can_sell = None`), `/validate-token` treats the `None` sell flag
as a failed sell check and returns `is_safe=false`, risk `HIGH`, reason
"Token cannot be sold (honeypot detected)". -/
theorem c9_unreachable_rpc (w : RpcWorld) (addr chain u : List Char)
    (hurl : rpcUrlFor chain = some u) (haddr : isAddress addr = true)
    (hconn : w.connected = false) :
    validateToken w addr chain =
      ⟨false, "HIGH".data, "Token cannot be sold (honeypot detected)".data,
       none, none⟩ ∧
    simulateSwap w addr =
      ⟨none, none, none, none, some "Cannot connect to RPC".data⟩ := by
  have hsim : simulateSwap w addr =
      ⟨none, none, none, none, some "Cannot connect to RPC".data⟩ := by
    simp [simulateSwap, hconn]
  refine ⟨?_, hsim⟩
  simp [validateToken, hurl, haddr, hsim, pyTruthy]

/-- C9 witness at a concrete request: the `cronos` chain, a syntactically
valid lowercase token address, and an unreachable endpoint. -/
theorem c9_witness :
    validateToken ⟨false, false, none⟩
        "0x6001b76e8cea99a749f591ed6e1ce7a704cf231b".data "cronos".data =
      ⟨false, "HIGH".data, "Token cannot be sold (honeypot detected)".data,
       none, none⟩ ∧
    simulateSwap ⟨false, false, none⟩
        "0x6001b76e8cea99a749f591ed6e1ce7a704cf231b".data =
      ⟨none, none, none, none, some "Cannot connect to RPC".data⟩ :=
  c9_unreachable_rpc ⟨false, false, none⟩ _ _ "https://evm.cronos.org".data
    (by decide) (by decide) rfl

/-- C2: if the pipeline approved but the signing call raises, the facade
reports `approved=false`, returns no `payment_header`, and surfaces the
signing error distinctly from a pipeline rejection: the reason carries the
"Failed to generate payment header: " prefix and the `error` key is set
(a pipeline rejection sets neither). -/
theorem c2_signing_failure
    (validate : List Char → List Char → List Char →
      List (List Char × List Char) → PipelineResult)
    (payTo asset amount network e : List Char)
    (context : Option (List (List Char × List Char)))
    (happr : (validate payTo amount "0x".data
        (dictUpdate (context.getD [])
          (facadeContextUpdates payTo asset amount network))).approved = true) :
    (generateSafePaymentHeader validate (.error e) payTo asset amount network
        context).1 =
      ⟨false, none, some ("Failed to generate payment header: ".data ++ e),
       some e⟩ := by
  simp [generateSafePaymentHeader, happr, Bind.bind, Except.bind]

/-- C2 witness: an always-approving pipeline and a signing call that raises
with an invalid-key message. -/
theorem c2_witness :
    (generateSafePaymentHeader (fun _ _ _ _ => ⟨true, none⟩)
        (.error "InvalidKey".data) "0xto".data "0xasset".data "5".data
        "cronos-testnet".data none).1 =
      ⟨false, none,
       some ("Failed to generate payment header: ".data ++ "InvalidKey".data),
       some "InvalidKey".data⟩ :=
  c2_signing_failure (fun _ _ _ _ => ⟨true, none⟩) _ _ _ _ _ none rfl

/-- C6: domain resolution is deterministic in the `(asset, network)` pair —
assets equal up to letter case resolve identically (the token table is
consulted case-insensitively) — and an asset absent from the table resolves
to the documented fallback domain instead of raising. -/
theorem c6_domain_resolution (network : List Char)
    (tn tv : Option (List Char)) (a b : List Char)
    (hab : lowerStr a = lowerStr b) :
    resolveTokenDomain network tn tv a = resolveTokenDomain network tn tv b ∧
    (getTokenConfig network a = none →
      resolveTokenDomain network none none a =
        ("Bridged USDC (Stargate)".data, "1".data)) := by
  have hcfg : getTokenConfig network a = getTokenConfig network b := by
    cases h : lookupAssoc TOKENS network with
    | none => simp [getTokenConfig, h]
    | some toks => simp [getTokenConfig, h, hab]
  constructor
  · cases tn <;> cases tv <;> simp [resolveTokenDomain, hcfg]
  · intro hnone
    simp [resolveTokenDomain, hnone, pyOr]

/-- C6 witness: the testnet USDC.e address in uppercase hex resolves exactly
as its lowercase form. -/
theorem c6_witness :
    resolveTokenDomain "cronos-testnet".data none none
        "0XC01EFAAF7C5C61BEBFAEB358E1161B537B8BC0E0".data =
      resolveTokenDomain "cronos-testnet".data none none
        "0xc01efaaf7c5c61bebfaeb358e1161b537b8bc0e0".data ∧
    (getTokenConfig "cronos-testnet".data
        "0XC01EFAAF7C5C61BEBFAEB358E1161B537B8BC0E0".data = none →
      resolveTokenDomain "cronos-testnet".data none none
          "0XC01EFAAF7C5C61BEBFAEB358E1161B537B8BC0E0".data =
        ("Bridged USDC (Stargate)".data, "1".data)) :=
  c6_domain_resolution "cronos-testnet".data none none _ _ (by decide)

/-- C7: the nonce of a generated credential is exactly this call's 32-byte
random draw rendered as a `0x`-prefixed 64-character lowercase hex string,
and two credentials generated from identical inputs whose random draws
differ carry different nonces. -/
theorem c7_nonce_freshness (env : SignEnv) (r1 r2 : List Nat)
    (network pk payTo asset amount : List Char) (timeout : Int)
    (tn tv : Option (List Char))
    (hl1 : r1.length = 32) (hb1 : ∀ b ∈ r1, b < 256)
    (hl2 : r2.length = 32) (hb2 : ∀ b ∈ r2, b < 256)
    (hne : r1 ≠ r2) :
    (buildPaymentHeader
        ⟨env.accountAddress, env.toChecksumAddress, env.signTypedData, r1,
         env.now⟩ network pk payTo asset amount timeout tn tv).payload.nonce =
      generateNonce r1 ∧
    (generateNonce r1).length = 66 ∧
    startsWith0x (generateNonce r1) = true ∧
    (∀ c ∈ (generateNonce r1).drop 2, c ∈ lowerHexDigits) ∧
    (buildPaymentHeader
        ⟨env.accountAddress, env.toChecksumAddress, env.signTypedData, r1,
         env.now⟩ network pk payTo asset amount timeout tn tv).payload.nonce ≠
      (buildPaymentHeader
        ⟨env.accountAddress, env.toChecksumAddress, env.signTypedData, r2,
         env.now⟩ network pk payTo asset amount timeout tn tv).payload.nonce := by
  refine ⟨rfl, ?_, rfl, ?_, ?_⟩
  · simp [generateNonce, bytesToHex_length, hl1]
  · intro c hc
    simp only [generateNonce, List.drop_succ_cons, List.drop_zero] at hc
    exact bytesToHex_chars r1 hb1 c hc
  · show generateNonce r1 ≠ generateNonce r2
    intro h
    simp only [generateNonce, List.cons.injEq, true_and] at h
    exact hne (bytesToHex_inj r1 r2 (by omega) hb1 hb2 h)

/-- C7 witness: two concrete 32-byte draws differing in one byte. -/
theorem c7_witness :
    (buildPaymentHeader
        ⟨id, id, fun _ _ => "ab".data, List.replicate 32 0, 1000⟩
        "cronos-testnet".data "k".data "t".data "a".data "5".data 300 none
        none).payload.nonce =
      generateNonce (List.replicate 32 0) ∧
    (generateNonce (List.replicate 32 0)).length = 66 ∧
    startsWith0x (generateNonce (List.replicate 32 0)) = true ∧
    (∀ c ∈ (generateNonce (List.replicate 32 0)).drop 2, c ∈ lowerHexDigits) ∧
    (buildPaymentHeader
        ⟨id, id, fun _ _ => "ab".data, List.replicate 32 0, 1000⟩
        "cronos-testnet".data "k".data "t".data "a".data "5".data 300 none
        none).payload.nonce ≠
      (buildPaymentHeader
        ⟨id, id, fun _ _ => "ab".data, 1 :: List.replicate 31 0, 1000⟩
        "cronos-testnet".data "k".data "t".data "a".data "5".data 300 none
        none).payload.nonce :=
  c7_nonce_freshness ⟨id, id, fun _ _ => "ab".data, [], 1000⟩
    (List.replicate 32 0) (1 :: List.replicate 31 0) "cronos-testnet".data
    "k".data "t".data "a".data "5".data 300 none none
    (by decide) (by decide) (by decide) (by decide) (by decide)

/-- C10: the facade writes the five pipeline keys into the caller-supplied
context before validation, overwriting any same-named entries, and leaves
every other key untouched; the returned context is the caller's dictionary
after the in-place `context.update({...})`. -/
theorem c10_context_mutation
    (validate : List Char → List Char → List Char →
      List (List Char × List Char) → PipelineResult)
    (sign : Except (List Char) (List Char))
    (payTo asset amount network : List Char)
    (ctx : List (List Char × List Char)) :
    (generateSafePaymentHeader validate sign payTo asset amount network
        (some ctx)).2 =
      dictUpdate ctx (facadeContextUpdates payTo asset amount network) ∧
    lookupKey (dictUpdate ctx (facadeContextUpdates payTo asset amount network))
      "payment_type".data = some "x402".data ∧
    lookupKey (dictUpdate ctx (facadeContextUpdates payTo asset amount network))
      "recipient".data = some payTo ∧
    lookupKey (dictUpdate ctx (facadeContextUpdates payTo asset amount network))
      "token".data = some asset ∧
    lookupKey (dictUpdate ctx (facadeContextUpdates payTo asset amount network))
      "amount".data = some amount ∧
    lookupKey (dictUpdate ctx (facadeContextUpdates payTo asset amount network))
      "network".data = some network ∧
    (∀ k, k ≠ "payment_type".data → k ≠ "recipient".data → k ≠ "token".data →
      k ≠ "amount".data → k ≠ "network".data →
      lookupKey (dictUpdate ctx (facadeContextUpdates payTo asset amount network))
        k = lookupKey ctx k) := by
  have hu : dictUpdate ctx (facadeContextUpdates payTo asset amount network) =
      setKey (setKey (setKey (setKey (setKey ctx "payment_type".data
        "x402".data) "recipient".data payTo) "token".data asset)
        "amount".data amount) "network".data network := rfl
  refine ⟨?_, ?_, ?_, ?_, ?_, ?_, ?_⟩
  · simp only [generateSafePaymentHeader]
    split
    · rfl
    · split <;> rfl
  · rw [hu, lookupKey_setKey_other _ _ _ _ (by decide),
      lookupKey_setKey_other _ _ _ _ (by decide),
      lookupKey_setKey_other _ _ _ _ (by decide),
      lookupKey_setKey_other _ _ _ _ (by decide), lookupKey_setKey_self]
  · rw [hu, lookupKey_setKey_other _ _ _ _ (by decide),
      lookupKey_setKey_other _ _ _ _ (by decide),
      lookupKey_setKey_other _ _ _ _ (by decide), lookupKey_setKey_self]
  · rw [hu, lookupKey_setKey_other _ _ _ _ (by decide),
      lookupKey_setKey_other _ _ _ _ (by decide), lookupKey_setKey_self]
  · rw [hu, lookupKey_setKey_other _ _ _ _ (by decide), lookupKey_setKey_self]
  · rw [hu, lookupKey_setKey_self]
  · intro k h1 h2 h3 h4 h5
    rw [hu, lookupKey_setKey_other _ _ _ _ h5, lookupKey_setKey_other _ _ _ _ h4,
      lookupKey_setKey_other _ _ _ _ h3, lookupKey_setKey_other _ _ _ _ h2,
      lookupKey_setKey_other _ _ _ _ h1]

/-- C10 witness: a caller context with a clashing `amount` key and an
unrelated `foo` key. -/
theorem c10_witness :
    lookupKey (dictUpdate [("amount".data, "old".data)]
        (facadeContextUpdates "a".data "b".data "5".data "net".data))
      "amount".data = some "5".data ∧
    lookupKey (dictUpdate [("amount".data, "old".data)]
        (facadeContextUpdates "a".data "b".data "5".data "net".data))
      "foo".data = lookupKey [("amount".data, "old".data)] "foo".data :=
  ⟨(c10_context_mutation (fun _ _ _ _ => ⟨true, none⟩) (.ok "h".data)
      "a".data "b".data "5".data "net".data
      [("amount".data, "old".data)]).2.2.2.2.1,
   (c10_context_mutation (fun _ _ _ _ => ⟨true, none⟩) (.ok "h".data)
      "a".data "b".data "5".data "net".data
      [("amount".data, "old".data)]).2.2.2.2.2.2 "foo".data (by decide)
      (by decide) (by decide) (by decide) (by decide)⟩

/-- C3: the pipeline short-circuits — a failing stage is named in
`stage_failed` and no later stage (in particular neither the honeypot probe
nor the final analysis section after a policy failure) is ever invoked — and
the honeypot probe runs only for `swap`/`buy` intents, `transfer`/`query`
intents passing it vacuously. -/
theorem c3_pipeline_short_circuit (hasJudge hasPolicy : Bool)
    (s1 s2 s3 : Intent → StageResult) (i : Intent)
    (vr : ValidationOutcome × List (List Char))
    (hvr : vr = validateWithAgentShield hasJudge hasPolicy s1 s2 s3 i) :
    (hasJudge = true → (s1 i).passed = false →
      vr = (⟨false, (s1 i).reason, some "LLM Intent Judge".data⟩,
        ["LLM Intent Judge".data])) ∧
    (hasPolicy = true → (s2 i).passed = false →
      (hasJudge = true → (s1 i).passed = true) →
      (vr.1.approved = false ∧
       vr.1.stageFailed = some "Policy Validation".data ∧
       "Honeypot Detection".data ∉ vr.2 ∧ "LLM Analysis".data ∉ vr.2)) ∧
    (i.action ≠ "swap".data → i.action ≠ "buy".data →
      "Honeypot Detection".data ∉ vr.2) ∧
    ((hasJudge = true → (s1 i).passed = true) →
     (hasPolicy = true → (s2 i).passed = true) →
     i.action ≠ "swap".data → i.action ≠ "buy".data →
     vr.1 = ⟨true, "All validation stages passed".data, none⟩) ∧
    ((hasJudge = true → (s1 i).passed = true) →
     (hasPolicy = true → (s2 i).passed = true) →
     (i.action = "swap".data ∨ i.action = "buy".data) →
     (s3 i).passed = false →
     (vr.1.approved = false ∧
      vr.1.stageFailed = some "Honeypot Detection".data ∧
      "LLM Analysis".data ∉ vr.2)) := by
  subst hvr
  refine ⟨?_, ?_, ?_, ?_, ?_⟩
  · intro hj h1
    simp [validateWithAgentShield, hj, h1]
  · intro hp h2 h1i
    cases hasJudge with
    | false =>
        simp only [validateWithAgentShield, hp, h2]
        refine ⟨?_, ?_, ?_, ?_⟩ <;> simp [h2] <;> decide
    | true =>
        have h1 := h1i rfl
        simp only [validateWithAgentShield, hp, h1, h2]
        refine ⟨?_, ?_, ?_, ?_⟩ <;> simp [h1, h2] <;> decide
  · intro hsw hbuy
    cases hasJudge <;> cases hasPolicy <;>
      rcases hp1 : (s1 i).passed <;> rcases hp2 : (s2 i).passed <;>
        simp [validateWithAgentShield, hp1, hp2, hsw, hbuy] <;> decide
  · intro h1i h2i hsw hbuy
    cases hasJudge <;> cases hasPolicy <;>
      simp_all [validateWithAgentShield, hsw, hbuy]
  · intro h1i h2i hact h3
    cases hasJudge <;> cases hasPolicy <;>
      simp_all [validateWithAgentShield] <;>
        rcases hact with h | h <;> simp [h, h3] <;> decide

/-- C3 witness: with both engines present, a passing intent judge and a
failing policy stage on a transfer intent, the probe and analysis stages are
not reached and the failed stage is named. -/
theorem c3_witness :
    (validateWithAgentShield true true (fun _ => ⟨true, "ok".data⟩)
        (fun _ => ⟨false, "limit".data⟩) (fun _ => ⟨true, "ok".data⟩)
        ⟨"transfer".data, "USDC".data, "10".data, none⟩).1.approved = false ∧
    (validateWithAgentShield true true (fun _ => ⟨true, "ok".data⟩)
        (fun _ => ⟨false, "limit".data⟩) (fun _ => ⟨true, "ok".data⟩)
        ⟨"transfer".data, "USDC".data, "10".data, none⟩).1.stageFailed =
      some "Policy Validation".data ∧
    "Honeypot Detection".data ∉
      (validateWithAgentShield true true (fun _ => ⟨true, "ok".data⟩)
        (fun _ => ⟨false, "limit".data⟩) (fun _ => ⟨true, "ok".data⟩)
        ⟨"transfer".data, "USDC".data, "10".data, none⟩).2 ∧
    "LLM Analysis".data ∉
      (validateWithAgentShield true true (fun _ => ⟨true, "ok".data⟩)
        (fun _ => ⟨false, "limit".data⟩) (fun _ => ⟨true, "ok".data⟩)
        ⟨"transfer".data, "USDC".data, "10".data, none⟩).2 :=
  (c3_pipeline_short_circuit true true (fun _ => ⟨true, "ok".data⟩)
      (fun _ => ⟨false, "limit".data⟩) (fun _ => ⟨true, "ok".data⟩)
      ⟨"transfer".data, "USDC".data, "10".data, none⟩ _ rfl).2.1 rfl rfl
    (fun _ => rfl)

/-! # Codec round trip, stage 1: base64 and UTF-8 -/

theorem b64Index_b64Char : ∀ n, n < 64 → b64Index (b64Char n) = some n := by
  decide

theorem b64Char_ne_pad : ∀ n, n < 64 → b64Char n ≠ '=' := by
  decide

theorem b64Char_kept (n : Nat) (h : n < 64) :
    ((b64Index (b64Char n)).isSome || b64Char n = '=') = true := by
  rw [b64Index_b64Char n h]
  simp

theorem b64encode_kept : ∀ bs : List Nat, (∀ b ∈ bs, b < 256) →
    ∀ c ∈ b64encode bs, ((b64Index c).isSome || c = '=') = true := by
  intro bs
  induction bs using b64encode.induct with
  | case1 => intro _ c hc; simp [b64encode] at hc
  | case2 a =>
      intro hb c hc
      have ha : a < 256 := hb a (by simp)
      simp only [b64encode, List.mem_cons, List.not_mem_nil, or_false] at hc
      rcases hc with h | h | h | h <;> subst h
      · exact b64Char_kept _ (by omega)
      · exact b64Char_kept _ (by omega)
      · simp
      · simp
  | case3 a b =>
      intro hb c hc
      have ha : a < 256 := hb a (by simp)
      have hbb : b < 256 := hb b (by simp)
      simp only [b64encode, List.mem_cons, List.not_mem_nil, or_false] at hc
      rcases hc with h | h | h | h <;> subst h
      · exact b64Char_kept _ (by omega)
      · exact b64Char_kept _ (by omega)
      · exact b64Char_kept _ (by omega)
      · simp
  | case4 a b c rest ih =>
      intro hb d hd
      have ha : a < 256 := hb a (by simp)
      have hbb : b < 256 := hb b (by simp)
      have hcc : c < 256 := hb c (by simp)
      simp only [b64encode, List.mem_cons] at hd
      rcases hd with h | h | h | h | h
      · exact h ▸ b64Char_kept _ (by omega)
      · exact h ▸ b64Char_kept _ (by omega)
      · exact h ▸ b64Char_kept _ (by omega)
      · exact h ▸ b64Char_kept _ (by omega)
      · exact ih (fun x hx => hb x (by simp [hx])) d h

theorem b64decodeQuads_encode : ∀ bs : List Nat, (∀ b ∈ bs, b < 256) →
    b64decodeQuads (b64encode bs) = .ok bs := by
  intro bs
  induction bs using b64encode.induct with
  | case1 => intro _; rfl
  | case2 a =>
      intro hb
      have ha : a < 256 := hb a (by simp)
      have e1 := b64Index_b64Char (a / 4) (by omega)
      have e2 := b64Index_b64Char (a % 4 * 16) (by omega)
      simp [b64encode, b64decodeQuads, e1, e2] <;> omega
  | case3 a b =>
      intro hb
      have ha : a < 256 := hb a (by simp)
      have hbb : b < 256 := hb b (by simp)
      have e1 := b64Index_b64Char (a / 4) (by omega)
      have e2 := b64Index_b64Char (a % 4 * 16 + b / 16) (by omega)
      have e3 := b64Index_b64Char (b % 16 * 4) (by omega)
      have p3 := b64Char_ne_pad (b % 16 * 4) (by omega)
      simp [b64encode, b64decodeQuads, e1, e2, e3, p3] <;> omega
  | case4 a b c rest ih =>
      intro hb
      have ha : a < 256 := hb a (by simp)
      have hbb : b < 256 := hb b (by simp)
      have hcc : c < 256 := hb c (by simp)
      have htail := ih (fun x hx => hb x (by simp [hx]))
      have e1 := b64Index_b64Char (a / 4) (by omega)
      have e2 := b64Index_b64Char (a % 4 * 16 + b / 16) (by omega)
      have e3 := b64Index_b64Char (b % 16 * 4 + c / 64) (by omega)
      have e4 := b64Index_b64Char (c % 64) (by omega)
      have p3 := b64Char_ne_pad (b % 16 * 4 + c / 64) (by omega)
      have p4 := b64Char_ne_pad (c % 64) (by omega)
      simp [b64encode, b64decodeQuads, e1, e2, e3, e4, p3, p4, htail, Except.map]
      refine ⟨by omega, by omega, by omega⟩

theorem b64decode_b64encode (bs : List Nat) (hb : ∀ b ∈ bs, b < 256) :
    b64decode (b64encode bs) = .ok bs := by
  unfold b64decode
  rw [List.filter_eq_self.mpr (b64encode_kept bs hb)]
  exact b64decodeQuads_encode bs hb

theorem utf8EncodeChar_ascii (c : Char) (h : c.toNat < 128) :
    utf8EncodeChar c = [c.toNat] := by
  simp [utf8EncodeChar, h]

theorem utf8Encode_ascii_bytes : ∀ s : List Char, (∀ c ∈ s, c.toNat < 128) →
    ∀ b ∈ utf8Encode s, b < 256 := by
  intro s
  induction s with
  | nil => intro _ b hb; simp [utf8Encode] at hb
  | cons c rest ih =>
      intro h b hb
      have hc := h c (by simp)
      rw [utf8Encode, utf8EncodeChar_ascii c hc] at hb
      simp only [List.cons_append, List.nil_append, List.mem_cons] at hb
      rcases hb with h' | h'
      · omega
      · exact ih (fun x hx => h x (by simp [hx])) b h'

theorem utf8DecodeLoop_encode_ascii : ∀ s : List Char,
    (∀ c ∈ s, c.toNat < 128) →
    utf8DecodeLoop (utf8Encode s).length (utf8Encode s) = .ok s := by
  intro s
  induction s with
  | nil => intro _; rfl
  | cons c rest ih =>
      intro h
      have hc := h c (by simp)
      have htail := ih (fun x hx => h x (by simp [hx]))
      rw [utf8Encode, utf8EncodeChar_ascii c hc]
      have hlt : c.toNat < 0x80 := hc
      simp only [List.cons_append, List.nil_append, List.length_cons,
        utf8DecodeLoop, utf8DecodeOne, if_pos hlt, htail, Except.map,
        Char.ofNat_toNat]
      simp [htail]

theorem utf8Decode_utf8Encode_ascii (s : List Char)
    (h : ∀ c ∈ s, c.toNat < 128) : utf8Decode (utf8Encode s) = .ok s := by
  rw [utf8Decode]
  exact utf8DecodeLoop_encode_ascii s h

/-! # Codec round trip, stage 2: strings and numbers -/

theorem charToNat_ofNat (n : Nat) (h : n < 0xd800) : (Char.ofNat n).toNat = n := by
  unfold Char.ofNat
  rw [dif_pos (Or.inl h)]
  simp [Char.ofNatAux, Char.toNat, UInt32.toNat]

theorem isDigitChar_bounds (c : Char) (h : isDigitChar c = true) :
    48 ≤ c.toNat ∧ c.toNat ≤ 57 := by
  simp only [isDigitChar, decide_eq_true_eq] at h
  obtain ⟨h1, h2⟩ := h
  rw [Char.le_def, UInt32.le_def] at h1 h2
  simp only [Char.toNat]
  exact ⟨h1, h2⟩

theorem char_ne_of_digit {c : Char} (hb : 48 ≤ c.toNat ∧ c.toNat ≤ 57)
    (d : Char) (hd : ¬(48 ≤ d.toNat ∧ d.toNat ≤ 57)) : c ≠ d :=
  fun e => hd (e ▸ hb)

theorem digit_dispatch (c : Char) (h : isDigitChar c = true) :
    isWs c = false ∧ c ≠ '"' ∧ c ≠ '\x7b' ∧ c ≠ '[' ∧ c ≠ 't' ∧ c ≠ 'f' ∧
      c ≠ 'n' ∧ c ≠ '-' := by
  have hb := isDigitChar_bounds c h
  refine ⟨?_, char_ne_of_digit hb _ (by decide), char_ne_of_digit hb _ (by decide),
    char_ne_of_digit hb _ (by decide), char_ne_of_digit hb _ (by decide),
    char_ne_of_digit hb _ (by decide), char_ne_of_digit hb _ (by decide),
    char_ne_of_digit hb _ (by decide)⟩
  have n1 : c ≠ ' ' := char_ne_of_digit hb _ (by decide)
  have n2 : c ≠ '\t' := char_ne_of_digit hb _ (by decide)
  have n3 : c ≠ '\n' := char_ne_of_digit hb _ (by decide)
  have n4 : c ≠ '\r' := char_ne_of_digit hb _ (by decide)
  simp [isWs, n1, n2, n3, n4]

theorem skipWs_cons_not (c : Char) (r : List Char) (h : isWs c = false) :
    skipWs (c :: r) = c :: r := by
  simp [skipWs, h]

theorem skipWs_ws (c : Char) (r : List Char) (h : isWs c = true) :
    skipWs (c :: r) = skipWs r := by
  simp [skipWs, h]

theorem parseStrBody_safe : ∀ s rest : List Char, SafeStr s = true →
    parseStrBody (s ++ '"' :: rest) = .ok (s, rest) := by
  intro s
  induction s with
  | nil =>
      intro rest _
      rw [parseStrBody.eq_def]
      simp
  | cons c cs ih =>
      intro rest hs
      rw [SafeStr, List.all_cons, Bool.and_eq_true] at hs
      obtain ⟨hc, htl⟩ := hs
      rw [SafeChar] at hc
      simp only [Bool.and_eq_true, decide_eq_true_eq, Bool.not_eq_true',
        decide_eq_false_iff_not] at hc
      obtain ⟨⟨⟨hge, hlt⟩, hq⟩, hbs⟩ := hc
      have hctl : ¬ (c.toNat < 0x20) := by omega
      rw [List.cons_append, parseStrBody.eq_def]
      have htail : parseStrBody (cs ++ '"' :: rest) = .ok (cs, rest) :=
        ih rest htl
      simp [hq, hbs, hctl, htail, Except.map]

theorem escapeChar_safe (c : Char) (h : SafeChar c = true) : escapeChar c = [c] := by
  rw [SafeChar] at h
  simp only [Bool.and_eq_true, decide_eq_true_eq, Bool.not_eq_true',
    decide_eq_false_iff_not] at h
  obtain ⟨⟨⟨hge, hlt⟩, hq⟩, hbs⟩ := h
  have hn : c ≠ '\n' := fun e => by subst e; exact absurd hge (by decide)
  have ht : c ≠ '\t' := fun e => by subst e; exact absurd hge (by decide)
  have hr : c ≠ '\r' := fun e => by subst e; exact absurd hge (by decide)
  have h8 : ¬ (c.toNat = 8) := by omega
  have h12 : ¬ (c.toNat = 12) := by omega
  have hrange : ¬ (c.toNat < 0x20 ∨ 0x7f ≤ c.toNat) := by omega
  simp [escapeChar, hq, hbs, hn, ht, hr, h8, h12, hrange]

theorem jsonEscape_safe : ∀ s : List Char, SafeStr s = true → jsonEscape s = s := by
  intro s
  induction s with
  | nil => intro _; rfl
  | cons c cs ih =>
      intro hs
      rw [SafeStr, List.all_cons, Bool.and_eq_true] at hs
      obtain ⟨hc, htl⟩ := hs
      rw [jsonEscape, escapeChar_safe c hc, ih htl]
      rfl

theorem dumpStr_safe (s : List Char) (h : SafeStr s = true) :
    dumpStr s = '"' :: (s ++ ['"']) := by
  rw [dumpStr, jsonEscape_safe s h]
  rfl

theorem digitChar_toNat (m : Nat) (h : m < 10) : (digitChar m).toNat = 48 + m := by
  rw [digitChar]
  exact charToNat_ofNat _ (by omega)

theorem digitChar_isDigit : ∀ m, m < 10 → isDigitChar (digitChar m) = true := by
  decide

theorem digitChar_ne_zero : ∀ m, m < 10 → 0 < m → digitChar m ≠ '0' := by
  decide

theorem natDigits_all_digits : ∀ n, ∀ c ∈ natDigits n, isDigitChar c = true := by
  intro n
  induction n using Nat.strong_induction_on with
  | _ n ih =>
      by_cases h : n < 10
      · rw [natDigits, dif_pos h]
        intro c hc
        simp only [List.mem_singleton] at hc
        subst hc
        exact digitChar_isDigit n h
      · rw [natDigits, dif_neg h]
        intro c hc
        rw [List.mem_append] at hc
        rcases hc with hc | hc
        · exact ih (n / 10) (Nat.div_lt_self (by omega) (by omega)) c hc
        · simp only [List.mem_singleton] at hc
          subst hc
          exact digitChar_isDigit _ (by omega)

theorem natDigits_shape : ∀ n, ∃ c cs, natDigits n = c :: cs ∧
    isDigitChar c = true ∧ (0 < n → c ≠ '0') := by
  intro n
  induction n using Nat.strong_induction_on with
  | _ n ih =>
      by_cases h : n < 10
      · exact ⟨digitChar n, [], by rw [natDigits, dif_pos h],
          digitChar_isDigit n h, fun h0 => digitChar_ne_zero n h h0⟩
      · obtain ⟨c, cs, he, hd, hz⟩ :=
          ih (n / 10) (Nat.div_lt_self (by omega) (by omega))
        refine ⟨c, cs ++ [digitChar (n % 10)], ?_, hd, fun _ => hz (by omega)⟩
        rw [natDigits, dif_neg h, he, List.cons_append]

theorem natDigits_foldl : ∀ n acc,
    (natDigits n).foldl (fun a c => a * 10 + (c.toNat - 48)) acc =
      acc * 10 ^ (natDigits n).length + n := by
  intro n
  induction n using Nat.strong_induction_on with
  | _ n ih =>
      intro acc
      by_cases h : n < 10
      · rw [natDigits, dif_pos h]
        simp only [List.foldl, digitChar_toNat n h, List.length_cons,
          List.length_nil, Nat.zero_add, pow_one]
        omega
      · rw [natDigits, dif_neg h, List.foldl_append,
          ih (n / 10) (Nat.div_lt_self (by omega) (by omega)) acc]
        simp only [List.foldl, digitChar_toNat (n % 10) (by omega),
          List.length_append, List.length_cons, List.length_nil]
        rw [pow_succ, ← mul_assoc]
        set A := acc * 10 ^ (natDigits (n / 10)).length with hA
        omega

theorem numBoundary_floatFollows (rest : List Char)
    (hb : numBoundary rest = true) : floatFollows rest = false := by
  cases rest with
  | nil => rfl
  | cons c t =>
      simp only [numBoundary, Bool.and_eq_true, Bool.not_eq_true',
        decide_eq_false_iff_not] at hb
      simp [floatFollows, hb.1.2, hb.2]
      exact hb.1.1.2

theorem parseDigits_foldl : ∀ ds : List Char,
    (∀ c ∈ ds, isDigitChar c = true) → ∀ acc rest, numBoundary rest = true →
    parseDigits (ds ++ rest) acc =
      (ds.foldl (fun a c => a * 10 + (c.toNat - 48)) acc, rest) := by
  intro ds
  induction ds with
  | nil =>
      intro _ acc rest hb
      cases rest with
      | nil => rfl
      | cons c t =>
          simp only [numBoundary, Bool.and_eq_true, Bool.not_eq_true',
            decide_eq_false_iff_not] at hb
          simp [parseDigits, hb.1.1.1]
  | cons d ds ih =>
      intro hds acc rest hb
      have hd := hds d (by simp)
      rw [List.cons_append, parseDigits.eq_def]
      simp only [hd, List.foldl]
      exact ih (fun c hc => hds c (by simp [hc])) _ rest hb

theorem parseUNum_natDigits (n : Nat) (rest : List Char)
    (hb : numBoundary rest = true) :
    parseUNum (natDigits n ++ rest) = .ok (n, rest) := by
  have hff := numBoundary_floatFollows rest hb
  by_cases h0 : n = 0
  · subst h0
    have : natDigits 0 = ['0'] := by rw [natDigits, dif_pos (by omega)]; rfl
    rw [this]
    simp [parseUNum, hff]
  · obtain ⟨c, cs, he, hd, hz⟩ := natDigits_shape n
    have hz2 := hz (by omega)
    have hcs : ∀ x ∈ cs, isDigitChar x = true := fun x hx =>
      natDigits_all_digits n x (by rw [he]; simp [hx])
    have hval := natDigits_foldl n 0
    rw [he] at hval
    simp only [List.foldl, Nat.zero_mul, Nat.zero_add] at hval
    rw [he, List.cons_append, parseUNum.eq_def]
    simp only [hz2, hd, if_false, if_true, reduceIte,
      parseDigits_foldl cs hcs (c.toNat - 48) rest hb, hff]
    simp [hval]

theorem intChars_nonneg (n : Int) (h : 0 ≤ n) :
    intChars n = natDigits n.natAbs := by
  rw [intChars, if_neg (not_lt.mpr h)]

theorem parseNum_intChars (n : Int) (h0 : 0 ≤ n) (rest : List Char)
    (hb : numBoundary rest = true) :
    parseNum (intChars n ++ rest) = .ok (n, rest) := by
  obtain ⟨c, cs, he, hd, _⟩ := natDigits_shape n.natAbs
  have hmin : c ≠ '-' := (digit_dispatch c hd).2.2.2.2.2.2.2
  rw [intChars_nonneg n h0, he, List.cons_append, parseNum.eq_def]
  simp only [hmin, if_false, reduceIte]
  rw [← List.cons_append, ← he, parseUNum_natDigits n.natAbs rest hb]
  simp [Except.map, Int.natAbs_of_nonneg h0]

/-! # Codec round trip, stage 3: values, members, objects -/

theorem parseVal_ws (fuel : Nat) (c : Char) (s : List Char)
    (h : isWs c = true) :
    parseVal (fuel + 1) (c :: s) = parseVal (fuel + 1) s := by
  conv_lhs => rw [parseVal]
  conv_rhs => rw [parseVal]
  rw [skipWs_ws c s h]

theorem parseVal_str (fuel : Nat) (s rest : List Char)
    (hs : SafeStr s = true) :
    parseVal (fuel + 1) ('"' :: (s ++ '"' :: rest)) = .ok (.jstr s, rest) := by
  rw [parseVal, skipWs_cons_not _ _ (by decide)]
  simp [parseStrBody_safe s rest hs, Except.map]

theorem parseVal_int (fuel : Nat) (n : Int) (rest : List Char) (h0 : 0 ≤ n)
    (hb : numBoundary rest = true) :
    parseVal (fuel + 1) (intChars n ++ rest) = .ok (.jnum n, rest) := by
  obtain ⟨c, cs, he, hd, _⟩ := natDigits_shape n.natAbs
  have hic : intChars n = c :: cs := by rw [intChars_nonneg n h0, he]
  obtain ⟨hws, h1, h2, h3, h4, h5, h6, _⟩ := digit_dispatch c hd
  rw [hic, List.cons_append, parseVal, skipWs_cons_not _ _ hws]
  have hnum : parseNum (c :: (cs ++ rest)) = .ok (n, rest) := by
    rw [← List.cons_append, ← hic]
    exact parseNum_intChars n h0 rest hb
  simp [h1, h2, h3, h4, h5, h6, hnum, Except.map]

theorem parseMember_ws (fuel : Nat) (c : Char) (s : List Char)
    (h : isWs c = true) :
    parseMember (fuel + 1) (c :: s) = parseMember (fuel + 1) s := by
  conv_lhs => rw [parseMember]
  conv_rhs => rw [parseMember]
  rw [skipWs_ws c s h]

theorem parseMember_step (fuel : Nat) (k rest : List Char)
    (hk : SafeStr k = true) :
    parseMember (fuel + 1) ('"' :: (k ++ '"' :: ':' :: rest)) =
      (parseVal fuel rest).map (fun p => ((k, p.1), p.2)) := by
  rw [parseMember, skipWs_cons_not _ _ (by decide)]
  simp [parseStrBody_safe k (':' :: rest) hk,
    skipWs_cons_not ':' rest (by decide)]

theorem dumpMembersRest_boundary (tl : List (List Char × FlatVal))
    (s : List Char) (hs : numBoundary s = true) :
    numBoundary (dumpMembersRest tl ++ s) = true := by
  cases tl with
  | nil => simpa [dumpMembersRest] using hs
  | cons kv tl2 =>
      obtain ⟨k, v⟩ := kv
      rw [dumpMembersRest, List.cons_append]
      rfl

theorem parseMember_dumpMember (fuel : Nat) (k : List Char) (v : FlatVal)
    (rest : List Char) (hk : SafeStr k = true) (hv : SafeFlat v = true)
    (hb : numBoundary rest = true) :
    parseMember (fuel + 2) (dumpMember k v ++ rest) =
      .ok ((k, v.toJVal), rest) := by
  rw [dumpMember, dumpStr_safe k hk]
  have hshape : ('"' :: (k ++ ['"']) ++ ':' :: ' ' :: dumpFlatVal v) ++ rest =
      '"' :: (k ++ '"' :: ':' :: (' ' :: (dumpFlatVal v ++ rest))) := by
    simp
  rw [hshape, parseMember_step (fuel + 1) k _ hk,
    parseVal_ws fuel ' ' _ (by decide)]
  cases v with
  | fstr s =>
      have hss : SafeStr s = true := hv
      rw [dumpFlatVal, dumpStr_safe s hss]
      have h2 : '"' :: (s ++ ['"']) ++ rest = '"' :: (s ++ '"' :: rest) := by
        simp
      rw [h2, parseVal_str fuel s rest hss]
      rfl
  | fint m =>
      have h0 : 0 ≤ m := by simpa [SafeFlat] using hv
      rw [dumpFlatVal, parseVal_int fuel m rest h0 hb]
      rfl

theorem parseObjRest_members : ∀ kvs : List (List Char × FlatVal),
    SafeKVs kvs = true → ∀ (f : Nat) (rest : List Char),
    parseObjRest (f + (3 * kvs.length + 1))
        (dumpMembersRest kvs ++ '\x7d' :: rest) =
      .ok (kvs.map (fun kv => (kv.1, kv.2.toJVal)), rest) := by
  intro kvs
  induction kvs with
  | nil =>
      intro _ f rest
      rw [show dumpMembersRest [] ++ '\x7d' :: rest = '\x7d' :: rest from rfl]
      rw [show (3 * ([] : List (List Char × FlatVal)).length + 1) = 1 by simp]
      rw [parseObjRest, skipWs_cons_not _ _ (by decide)]
      simp
  | cons kv tl ih =>
      obtain ⟨k, v⟩ := kv
      intro hsafe f rest
      rw [SafeKVs, List.all_cons, Bool.and_eq_true] at hsafe
      obtain ⟨hkv, htl⟩ := hsafe
      rw [Bool.and_eq_true] at hkv
      obtain ⟨hk, hv⟩ := hkv
      have hbz : numBoundary ('\x7d' :: rest) = true := rfl
      have hmem : parseMember (f + 3 * tl.length + 3)
          (dumpMember k v ++ (dumpMembersRest tl ++ '\x7d' :: rest)) =
          .ok ((k, v.toJVal), dumpMembersRest tl ++ '\x7d' :: rest) := by
        rw [show f + 3 * tl.length + 3 = f + 3 * tl.length + 1 + 2 by omega]
        exact parseMember_dumpMember (f + 3 * tl.length + 1) k v _ hk hv
          (dumpMembersRest_boundary tl _ hbz)
      have hws : parseMember (f + 3 * tl.length + 3)
          (' ' :: (dumpMember k v ++ (dumpMembersRest tl ++ '\x7d' :: rest))) =
          parseMember (f + 3 * tl.length + 3)
            (dumpMember k v ++ (dumpMembersRest tl ++ '\x7d' :: rest)) := by
        rw [show f + 3 * tl.length + 3 = f + 3 * tl.length + 2 + 1 by omega]
        exact parseMember_ws _ ' ' _ (by decide)
      have hih : parseObjRest (f + 3 * tl.length + 3)
          (dumpMembersRest tl ++ '\x7d' :: rest) =
          .ok (tl.map (fun kv => (kv.1, kv.2.toJVal)), rest) := by
        rw [show f + 3 * tl.length + 3 = (f + 2) + (3 * tl.length + 1) by omega]
        exact ih htl (f + 2) rest
      rw [List.length_cons,
        show f + (3 * (tl.length + 1) + 1) = (f + 3 * tl.length + 3) + 1 by omega]
      rw [dumpMembersRest, List.cons_append, List.cons_append,
        List.append_assoc]
      rw [parseObjRest, skipWs_cons_not _ _ (by decide)]
      simp only [hws, hmem, hih, Except.map, List.map_cons]

theorem parseObjBody_members : ∀ kvs : List (List Char × FlatVal),
    SafeKVs kvs = true → ∀ (f : Nat) (rest : List Char),
    parseObjBody (f + (3 * kvs.length + 3))
        (dumpMembers kvs ++ '\x7d' :: rest) =
      .ok (.jobj (kvs.map (fun kv => (kv.1, kv.2.toJVal))), rest) := by
  intro kvs
  cases kvs with
  | nil =>
      intro _ f rest
      rw [show dumpMembers [] ++ '\x7d' :: rest = '\x7d' :: rest from rfl]
      rw [show (3 * ([] : List (List Char × FlatVal)).length + 3) = 3 by simp]
      rw [show f + 3 = (f + 2) + 1 by omega]
      rw [parseObjBody, skipWs_cons_not _ _ (by decide)]
      simp
  | cons kv tl =>
      obtain ⟨k, v⟩ := kv
      intro hsafe f rest
      rw [SafeKVs, List.all_cons, Bool.and_eq_true] at hsafe
      obtain ⟨hkv, htl⟩ := hsafe
      rw [Bool.and_eq_true] at hkv
      obtain ⟨hk, hv⟩ := hkv
      have hbz : numBoundary ('\x7d' :: rest) = true := rfl
      have hshape : dumpMembers ((k, v) :: tl) ++ '\x7d' :: rest =
          '"' :: (k ++ '"' :: ':' :: (' ' ::
            (dumpFlatVal v ++ (dumpMembersRest tl ++ '\x7d' :: rest)))) := by
        rw [dumpMembers, dumpMember, dumpStr_safe k hk]
        simp
      have hmem : parseMember (f + 3 * tl.length + 5)
          ('"' :: (k ++ '"' :: ':' :: (' ' ::
            (dumpFlatVal v ++ (dumpMembersRest tl ++ '\x7d' :: rest))))) =
          .ok ((k, v.toJVal), dumpMembersRest tl ++ '\x7d' :: rest) := by
        have h0 := parseMember_dumpMember (f + 3 * tl.length + 3) k v
          (dumpMembersRest tl ++ '\x7d' :: rest) hk hv
          (dumpMembersRest_boundary tl _ hbz)
        have hsh2 : dumpMember k v ++ (dumpMembersRest tl ++ '\x7d' :: rest) =
            '"' :: (k ++ '"' :: ':' :: (' ' ::
              (dumpFlatVal v ++ (dumpMembersRest tl ++ '\x7d' :: rest)))) := by
          rw [dumpMember, dumpStr_safe k hk]
          simp
        rw [hsh2] at h0
        rw [show f + 3 * tl.length + 5 = f + 3 * tl.length + 3 + 2 by omega]
        exact h0
      have hrest : parseObjRest (f + 3 * tl.length + 5)
          (dumpMembersRest tl ++ '\x7d' :: rest) =
          .ok (tl.map (fun kv => (kv.1, kv.2.toJVal)), rest) := by
        rw [show f + 3 * tl.length + 5 = (f + 4) + (3 * tl.length + 1) by omega]
        exact parseObjRest_members tl htl (f + 4) rest
      rw [hshape, List.length_cons,
        show f + (3 * (tl.length + 1) + 3) = (f + 3 * tl.length + 5) + 1 by omega]
      rw [parseObjBody, skipWs_cons_not _ _ (by decide)]
      simp [hmem, hrest, Except.map]

theorem parseVal_dumpFlatObj (kvs : List (List Char × FlatVal))
    (hsafe : SafeKVs kvs = true) (f : Nat) (rest : List Char) :
    parseVal (f + (3 * kvs.length + 4)) (dumpFlatObj kvs ++ rest) =
      .ok (.jobj (kvs.map (fun kv => (kv.1, kv.2.toJVal))), rest) := by
  rw [dumpFlatObj]
  simp only [List.cons_append, List.append_assoc, List.singleton_append]
  rw [show f + (3 * kvs.length + 4) = (f + (3 * kvs.length + 3)) + 1 by omega]
  rw [parseVal, skipWs_cons_not _ _ (by decide)]
  simp [parseObjBody_members kvs hsafe f rest]

theorem parseObjRest_end (G : Nat) (rest : List Char) :
    parseObjRest (G + 1) ('\x7d' :: rest) = .ok ([], rest) := by
  rw [parseObjRest, skipWs_cons_not _ _ (by decide)]
  simp

theorem parseObjRest_step (G : Nat) (k : List Char) (v : FlatVal)
    (S rest : List Char) (acc : List (List Char × JVal))
    (hk : SafeStr k = true) (hv : SafeFlat v = true)
    (hbS : numBoundary S = true)
    (hcont : parseObjRest (G + 2) S = .ok (acc, rest)) :
    parseObjRest (G + 3) (',' :: ' ' :: (dumpMember k v ++ S)) =
      .ok ((k, v.toJVal) :: acc, rest) := by
  have hmem : parseMember (G + 2) (dumpMember k v ++ S) =
      .ok ((k, v.toJVal), S) := parseMember_dumpMember G k v S hk hv hbS
  have hws : parseMember (G + 2) (' ' :: (dumpMember k v ++ S)) =
      parseMember (G + 2) (dumpMember k v ++ S) := by
    rw [show G + 2 = (G + 1) + 1 by omega]
    exact parseMember_ws _ ' ' _ (by decide)
  rw [show G + 3 = (G + 2) + 1 by omega]
  rw [parseObjRest, skipWs_cons_not _ _ (by decide)]
  simp [hws, hmem, hcont, Except.map]

theorem parseObjRest_payload (f : Nat) (pl : PaymentPayload)
    (rest : List Char) (hsafe : SafeKVs (payloadKVs pl) = true) :
    parseObjRest (f + 31) (',' :: ' ' :: (dumpStr "payload".data ++
        ':' :: ' ' :: (dumpFlatObj (payloadKVs pl) ++ '\x7d' :: rest))) =
      .ok ([("payload".data, payloadJVal pl)], rest) := by
  have hobj : parseVal (f + 29)
      (dumpFlatObj (payloadKVs pl) ++ '\x7d' :: rest) =
      .ok (payloadJVal pl, '\x7d' :: rest) := by
    have hx := parseVal_dumpFlatObj (payloadKVs pl) hsafe (f + 1) ('\x7d' :: rest)
    rw [show (payloadKVs pl).length = 8 from rfl] at hx
    rw [show (f + 1) + (3 * 8 + 4) = f + 29 by omega] at hx
    rw [payloadJVal]
    exact hx
  have hval : parseVal (f + 29) (' ' ::
      (dumpFlatObj (payloadKVs pl) ++ '\x7d' :: rest)) =
      .ok (payloadJVal pl, '\x7d' :: rest) := by
    rw [show f + 29 = (f + 28) + 1 by omega, parseVal_ws _ ' ' _ (by decide)]
    rw [show (f + 28) + 1 = f + 29 by omega]
    exact hobj
  have hmem : parseMember (f + 30) (dumpStr "payload".data ++ ':' :: ' ' ::
      (dumpFlatObj (payloadKVs pl) ++ '\x7d' :: rest)) =
      .ok (("payload".data, payloadJVal pl), '\x7d' :: rest) := by
    rw [dumpStr_safe "payload".data (by decide)]
    rw [show '"' :: ("payload".data ++ ['"']) ++ ':' :: ' ' ::
        (dumpFlatObj (payloadKVs pl) ++ '\x7d' :: rest) =
      '"' :: ("payload".data ++ '"' :: ':' :: (' ' ::
        (dumpFlatObj (payloadKVs pl) ++ '\x7d' :: rest))) by simp]
    rw [show f + 30 = (f + 29) + 1 by omega]
    rw [parseMember_step (f + 29) "payload".data _ (by decide), hval]
    rfl
  have hws : parseMember (f + 30) (' ' :: (dumpStr "payload".data ++
      ':' :: ' ' :: (dumpFlatObj (payloadKVs pl) ++ '\x7d' :: rest))) =
      parseMember (f + 30) (dumpStr "payload".data ++ ':' :: ' ' ::
        (dumpFlatObj (payloadKVs pl) ++ '\x7d' :: rest)) := by
    rw [show f + 30 = (f + 29) + 1 by omega]
    exact parseMember_ws _ ' ' _ (by decide)
  have hend : parseObjRest (f + 30) ('\x7d' :: rest) = .ok ([], rest) := by
    rw [show f + 30 = (f + 29) + 1 by omega]
    exact parseObjRest_end _ rest
  rw [show f + 31 = (f + 30) + 1 by omega]
  rw [parseObjRest, skipWs_cons_not _ _ (by decide)]
  simp [hws, hmem, hend, Except.map]

theorem parseVal_dumpHeader (h : PaymentHeader)
    (hwf : WellFormedHeader h = true) (f : Nat) (rest : List Char) :
    parseVal (f + 35) (dumpHeader h ++ rest) = .ok (headerJVal h, rest) := by
  simp only [WellFormedHeader, Bool.and_eq_true] at hwf
  obtain ⟨⟨⟨⟨⟨⟨⟨⟨⟨⟨hs1, hs2⟩, hs3⟩, hs4⟩, hs5⟩, hs6⟩, hs7⟩, hs8⟩, hn1⟩, hn2⟩,
    hn3⟩ := hwf
  have kf : SafeStr "from".data = true := by decide
  have kt : SafeStr "to".data = true := by decide
  have kv2 : SafeStr "value".data = true := by decide
  have kva : SafeStr "validAfter".data = true := by decide
  have kvb : SafeStr "validBefore".data = true := by decide
  have kn : SafeStr "nonce".data = true := by decide
  have ksg : SafeStr "signature".data = true := by decide
  have ka : SafeStr "asset".data = true := by decide
  have hplsafe : SafeKVs (payloadKVs h.payload) = true := by
    simp [SafeKVs, payloadKVs, SafeFlat, hs3, hs4, hs5, hs6, hs7, hs8,
      hn2, hn3, kf, kt, kv2, kva, kvb, kn, ksg, ka]
  have hpay := parseObjRest_payload f h.payload rest hplsafe
  have hnet : parseObjRest (f + 32) (',' :: ' ' ::
      (dumpMember "network".data (.fstr h.network) ++
        (',' :: ' ' :: (dumpStr "payload".data ++ ':' :: ' ' ::
          (dumpFlatObj (payloadKVs h.payload) ++ '\x7d' :: rest))))) =
      .ok ([("network".data, JVal.jstr h.network),
        ("payload".data, payloadJVal h.payload)], rest) := by
    rw [show f + 32 = (f + 29) + 3 by omega]
    exact parseObjRest_step (f + 29) "network".data (.fstr h.network) _ rest _
      (by decide) hs2 rfl
      (by rw [show (f + 29) + 2 = f + 31 by omega]; exact hpay)
  have hsch : parseObjRest (f + 33) (',' :: ' ' ::
      (dumpMember "scheme".data (.fstr h.scheme) ++
        (',' :: ' ' :: (dumpMember "network".data (.fstr h.network) ++
          (',' :: ' ' :: (dumpStr "payload".data ++ ':' :: ' ' ::
            (dumpFlatObj (payloadKVs h.payload) ++ '\x7d' :: rest))))))) =
      .ok ([("scheme".data, JVal.jstr h.scheme),
        ("network".data, JVal.jstr h.network),
        ("payload".data, payloadJVal h.payload)], rest) := by
    rw [show f + 33 = (f + 30) + 3 by omega]
    exact parseObjRest_step (f + 30) "scheme".data (.fstr h.scheme) _ rest _
      (by decide) hs1 rfl
      (by rw [show (f + 30) + 2 = f + 32 by omega]; exact hnet)
  have hm1 : parseMember (f + 33)
      ('"' :: ("x402Version".data ++ '"' :: ':' :: (' ' ::
        (dumpFlatVal (.fint h.x402Version) ++
          (',' :: ' ' :: (dumpMember "scheme".data (.fstr h.scheme) ++
            (',' :: ' ' :: (dumpMember "network".data (.fstr h.network) ++
              (',' :: ' ' :: (dumpStr "payload".data ++ ':' :: ' ' ::
                (dumpFlatObj (payloadKVs h.payload) ++
                  '\x7d' :: rest))))))))))) =
      .ok (("x402Version".data, JVal.jnum h.x402Version),
        ',' :: ' ' :: (dumpMember "scheme".data (.fstr h.scheme) ++
          (',' :: ' ' :: (dumpMember "network".data (.fstr h.network) ++
            (',' :: ' ' :: (dumpStr "payload".data ++ ':' :: ' ' ::
              (dumpFlatObj (payloadKVs h.payload) ++ '\x7d' :: rest))))))) := by
    have h0 := parseMember_dumpMember (f + 31) "x402Version".data
      (.fint h.x402Version)
      (',' :: ' ' :: (dumpMember "scheme".data (.fstr h.scheme) ++
        (',' :: ' ' :: (dumpMember "network".data (.fstr h.network) ++
          (',' :: ' ' :: (dumpStr "payload".data ++ ':' :: ' ' ::
            (dumpFlatObj (payloadKVs h.payload) ++ '\x7d' :: rest)))))))
      (by decide) hn1 rfl
    have hsh : dumpMember "x402Version".data (.fint h.x402Version) ++
        (',' :: ' ' :: (dumpMember "scheme".data (.fstr h.scheme) ++
          (',' :: ' ' :: (dumpMember "network".data (.fstr h.network) ++
            (',' :: ' ' :: (dumpStr "payload".data ++ ':' :: ' ' ::
              (dumpFlatObj (payloadKVs h.payload) ++ '\x7d' :: rest))))))) =
        '"' :: ("x402Version".data ++ '"' :: ':' :: (' ' ::
          (dumpFlatVal (.fint h.x402Version) ++
            (',' :: ' ' :: (dumpMember "scheme".data (.fstr h.scheme) ++
              (',' :: ' ' :: (dumpMember "network".data (.fstr h.network) ++
                (',' :: ' ' :: (dumpStr "payload".data ++ ':' :: ' ' ::
                  (dumpFlatObj (payloadKVs h.payload) ++
                    '\x7d' :: rest)))))))))) := by
      rw [dumpMember, dumpStr_safe "x402Version".data (by decide)]
      simp
    rw [hsh] at h0
    rw [show f + 33 = (f + 31) + 2 by omega]
    exact h0
  have hbody : parseObjBody (f + 34) (dumpMembers (topKVs h) ++
      (',' :: ' ' :: (dumpStr "payload".data ++ ':' :: ' ' ::
        (dumpFlatObj (payloadKVs h.payload) ++ '\x7d' :: rest)))) =
      .ok (headerJVal h, rest) := by
    rw [show f + 34 = (f + 33) + 1 by omega]
    rw [topKVs]
    simp only [dumpMembers, dumpMembersRest, List.append_nil,
      List.append_assoc, List.cons_append]
    rw [show dumpMember "x402Version".data (.fint h.x402Version) =
      dumpStr "x402Version".data ++ ':' :: ' ' ::
        dumpFlatVal (.fint h.x402Version) from rfl]
    rw [dumpStr_safe "x402Version".data (by decide)]
    simp only [List.append_assoc, List.cons_append, List.nil_append]
    rw [parseObjBody, skipWs_cons_not _ _ (by decide)]
    simp only [List.cons_append, List.append_assoc, List.singleton_append,
      List.nil_append] at hm1 hsch
    simp [hm1, hsch, Except.map, headerJVal, topKVs, payloadJVal,
      FlatVal.toJVal]
  rw [dumpHeader]
  simp only [List.cons_append, List.append_assoc, List.singleton_append]
  rw [show f + 35 = (f + 34) + 1 by omega]
  rw [parseVal, skipWs_cons_not _ _ (by decide)]
  simp [hbody]

theorem dumpHeader_length (h : PaymentHeader) : 35 ≤ (dumpHeader h).length := by
  have e1 : (dumpStr "payload".data).length = 9 := by decide
  have e2 : (dumpStr "x402Version".data).length = 13 := by decide
  have e3 : (dumpStr "scheme".data).length = 8 := by decide
  have e4 : (dumpStr "network".data).length = 9 := by decide
  rw [dumpHeader, topKVs]
  simp only [dumpMembers, dumpMembersRest, dumpMember, dumpFlatObj,
    List.append_nil, List.length_cons, List.length_append, e1, e2, e3, e4]
  omega

theorem jsonLoads_dumpHeader (h : PaymentHeader)
    (hwf : WellFormedHeader h = true) :
    jsonLoads (dumpHeader h) = .ok (headerJVal h) := by
  have hlen := dumpHeader_length h
  have hp : parseVal ((dumpHeader h).length + 1) (dumpHeader h) =
      .ok (headerJVal h, []) := by
    have hx := parseVal_dumpHeader h hwf ((dumpHeader h).length + 1 - 35) []
    rw [List.append_nil] at hx
    rw [show (dumpHeader h).length + 1 - 35 + 35 =
      (dumpHeader h).length + 1 by omega] at hx
    exact hx
  rw [jsonLoads, hp]
  simp [skipWs]

theorem ascii_cons {c : Char} {xs : List Char} (hc : c.toNat < 128)
    (hxs : ∀ d ∈ xs, d.toNat < 128) : ∀ d ∈ c :: xs, d.toNat < 128 := by
  intro d hd
  rcases List.mem_cons.mp hd with he | hm
  · exact he ▸ hc
  · exact hxs d hm

theorem ascii_append {xs ys : List Char} (hx : ∀ c ∈ xs, c.toNat < 128)
    (hy : ∀ c ∈ ys, c.toNat < 128) : ∀ c ∈ xs ++ ys, c.toNat < 128 := by
  intro c hc
  rcases List.mem_append.mp hc with hm | hm
  · exact hx c hm
  · exact hy c hm

theorem ascii_nil : ∀ c ∈ ([] : List Char), c.toNat < 128 := by
  intro c hc
  simp at hc

theorem safe_ascii (s : List Char) (h : SafeStr s = true) :
    ∀ c ∈ s, c.toNat < 128 := by
  intro c hc
  rw [SafeStr, List.all_eq_true] at h
  have hc2 := h c hc
  rw [SafeChar] at hc2
  simp only [Bool.and_eq_true, decide_eq_true_eq] at hc2
  omega

theorem digits_ascii (s : List Char)
    (h : ∀ c ∈ s, isDigitChar c = true) : ∀ c ∈ s, c.toNat < 128 := by
  intro c hc
  have := isDigitChar_bounds c (h c hc)
  omega

theorem intChars_ascii (n : Int) (h0 : 0 ≤ n) :
    ∀ c ∈ intChars n, c.toNat < 128 := by
  rw [intChars_nonneg n h0]
  exact digits_ascii _ (natDigits_all_digits n.natAbs)

theorem dumpStr_ascii (s : List Char) (hs : SafeStr s = true) :
    ∀ c ∈ dumpStr s, c.toNat < 128 := by
  rw [dumpStr_safe s hs]
  exact ascii_cons (by decide)
    (ascii_append (safe_ascii s hs) (ascii_cons (by decide) ascii_nil))

theorem dumpFlatVal_ascii (v : FlatVal) (hv : SafeFlat v = true) :
    ∀ c ∈ dumpFlatVal v, c.toNat < 128 := by
  cases v with
  | fstr s => exact dumpStr_ascii s hv
  | fint n =>
      have h0 : (0 : Int) ≤ n := by simpa [SafeFlat] using hv
      exact intChars_ascii n h0

theorem dumpMember_ascii (k : List Char) (v : FlatVal)
    (hk : SafeStr k = true) (hv : SafeFlat v = true) :
    ∀ c ∈ dumpMember k v, c.toNat < 128 := by
  rw [dumpMember]
  exact ascii_append (dumpStr_ascii k hk)
    (ascii_cons (by decide) (ascii_cons (by decide) (dumpFlatVal_ascii v hv)))

theorem dumpMembersRest_ascii : ∀ kvs : List (List Char × FlatVal),
    SafeKVs kvs = true → ∀ c ∈ dumpMembersRest kvs, c.toNat < 128 := by
  intro kvs
  induction kvs with
  | nil => intro _; exact ascii_nil
  | cons kv tl ih =>
      obtain ⟨k, v⟩ := kv
      intro hsafe
      rw [SafeKVs, List.all_cons, Bool.and_eq_true] at hsafe
      obtain ⟨hkv, htl⟩ := hsafe
      rw [Bool.and_eq_true] at hkv
      rw [dumpMembersRest]
      exact ascii_cons (by decide) (ascii_cons (by decide)
        (ascii_append (dumpMember_ascii k v hkv.1 hkv.2) (ih htl)))

theorem dumpMembers_ascii (kvs : List (List Char × FlatVal))
    (hsafe : SafeKVs kvs = true) : ∀ c ∈ dumpMembers kvs, c.toNat < 128 := by
  cases kvs with
  | nil => exact ascii_nil
  | cons kv tl =>
      obtain ⟨k, v⟩ := kv
      rw [SafeKVs, List.all_cons, Bool.and_eq_true] at hsafe
      obtain ⟨hkv, htl⟩ := hsafe
      rw [Bool.and_eq_true] at hkv
      rw [dumpMembers]
      exact ascii_append (dumpMember_ascii k v hkv.1 hkv.2)
        (dumpMembersRest_ascii tl htl)

theorem dumpFlatObj_ascii (kvs : List (List Char × FlatVal))
    (hsafe : SafeKVs kvs = true) : ∀ c ∈ dumpFlatObj kvs, c.toNat < 128 := by
  rw [dumpFlatObj]
  exact ascii_cons (by decide) (ascii_append (dumpMembers_ascii kvs hsafe)
    (ascii_cons (by decide) ascii_nil))

theorem topKVs_safe (h : PaymentHeader) (hwf : WellFormedHeader h = true) :
    SafeKVs (topKVs h) = true := by
  simp only [WellFormedHeader, Bool.and_eq_true] at hwf
  obtain ⟨⟨⟨⟨⟨⟨⟨⟨⟨⟨hs1, hs2⟩, _⟩, _⟩, _⟩, _⟩, _⟩, _⟩, hn1⟩, _⟩, _⟩ := hwf
  have k1 : SafeStr "x402Version".data = true := by decide
  have k2 : SafeStr "scheme".data = true := by decide
  have k3 : SafeStr "network".data = true := by decide
  simp [SafeKVs, topKVs, SafeFlat, hs1, hs2, hn1, k1, k2, k3]

theorem payloadKVs_safe (h : PaymentHeader)
    (hwf : WellFormedHeader h = true) :
    SafeKVs (payloadKVs h.payload) = true := by
  simp only [WellFormedHeader, Bool.and_eq_true] at hwf
  obtain ⟨⟨⟨⟨⟨⟨⟨⟨⟨⟨_, _⟩, hs3⟩, hs4⟩, hs5⟩, hs6⟩, hs7⟩, hs8⟩, _⟩, hn2⟩,
    hn3⟩ := hwf
  have kf : SafeStr "from".data = true := by decide
  have kt : SafeStr "to".data = true := by decide
  have kv2 : SafeStr "value".data = true := by decide
  have kva : SafeStr "validAfter".data = true := by decide
  have kvb : SafeStr "validBefore".data = true := by decide
  have kn : SafeStr "nonce".data = true := by decide
  have ksg : SafeStr "signature".data = true := by decide
  have ka : SafeStr "asset".data = true := by decide
  simp [SafeKVs, payloadKVs, SafeFlat, hs3, hs4, hs5, hs6, hs7, hs8,
    hn2, hn3, kf, kt, kv2, kva, kvb, kn, ksg, ka]

theorem dumpHeader_ascii (h : PaymentHeader)
    (hwf : WellFormedHeader h = true) :
    ∀ c ∈ dumpHeader h, c.toNat < 128 := by
  rw [dumpHeader]
  exact ascii_cons (by decide) (ascii_append
    (dumpMembers_ascii _ (topKVs_safe h hwf))
    (ascii_cons (by decide) (ascii_cons (by decide) (ascii_append
      (dumpStr_ascii _ (by decide))
      (ascii_cons (by decide) (ascii_cons (by decide) (ascii_append
        (dumpFlatObj_ascii _ (payloadKVs_safe h hwf))
        (ascii_cons (by decide) ascii_nil))))))))

/-- Round trip of the credential codec: decoding the generate-time encoding
of a well-formed payment header recovers its JSON dictionary field for
field. -/
theorem decode_encode_header (h : PaymentHeader)
    (hwf : WellFormedHeader h = true) :
    decodePaymentHeader (encodeHeader h) = .ok (headerJVal h) := by
  have hascii := dumpHeader_ascii h hwf
  have hbytes := utf8Encode_ascii_bytes (dumpHeader h) hascii
  rw [encodeHeader, decodePaymentHeader, b64decode_b64encode _ hbytes]
  simp only [utf8Decode_utf8Encode_ascii _ hascii, jsonLoads_dumpHeader h hwf]

theorem safeChar_hex : ∀ c ∈ lowerHexDigits, SafeChar c = true := by
  decide

theorem generateNonce_safe (r : List Nat) (hb : ∀ b ∈ r, b < 256) :
    SafeStr (generateNonce r) = true := by
  rw [generateNonce, SafeStr, List.all_cons, List.all_cons]
  simp only [Bool.and_eq_true]
  refine ⟨by decide, by decide, ?_⟩
  rw [List.all_eq_true]
  intro c hc
  exact safeChar_hex c (bytesToHex_chars r hb c hc)

theorem ensure0x_safe (s : List Char) (h : SafeStr s = true) :
    SafeStr (ensure0x s) = true := by
  rw [ensure0x]
  split
  · exact h
  · rw [SafeStr, List.all_cons, List.all_cons]
    simp only [Bool.and_eq_true]
    exact ⟨by decide, by decide, h⟩

theorem buildPaymentHeader_wellFormed (env : SignEnv)
    (network privateKey payTo asset amount : List Char) (t : Int)
    (tn tv : Option (List Char))
    (hck : ∀ s, SafeStr (env.toChecksumAddress s) = true)
    (hsig : ∀ d m, SafeStr (env.signTypedData d m) = true)
    (hnet : SafeStr network = true) (hamt : SafeStr amount = true)
    (hrand : ∀ b ∈ env.urandom32, b < 256)
    (hnow : 0 ≤ env.now) (ht : 0 ≤ t) :
    WellFormedHeader (buildPaymentHeader env network privateKey payTo asset
      amount t tn tv) = true := by
  have hsch : SafeStr "eip3009".data = true := by decide
  have hvb : (0 : Int) ≤ env.now + t := by omega
  simp [buildPaymentHeader, WellFormedHeader, hck, hsig, hnet, hamt, hsch,
    generateNonce_safe env.urandom32 hrand, ensure0x_safe, hvb]

/-- C1: the codec round-trip law. For every well-formed credential (safe
ASCII string fields — every §3 credential qualifies — and non-negative
numeric fields), decoding the generate-time encoding returns the credential
dictionary unchanged, field for field: `headerJVal h` carries the exact
string forms of `value`, `nonce` and `signature` and the exact integers of
`x402Version`, `validAfter`, `validBefore`. -/
theorem c1_codec_round_trip (h : PaymentHeader)
    (hwf : WellFormedHeader h = true) :
    decodePaymentHeader (encodeHeader h) = .ok (headerJVal h) :=
  decode_encode_header h hwf

/-- C1 witness: a concrete §3-shaped credential. -/
theorem c1_witness :
    decodePaymentHeader (encodeHeader
      ⟨1, "eip3009".data, "cronos-testnet".data,
       ⟨"0x7BD6Cd1A975438E510e1CC70a815042Bb357B131".data,
        "0x742d35Cc6634C0532925a3b844Bc9e7595f0bEb1".data,
        "1000000".data, 0, 1700000300,
        "0x9f2c4a0e8b7d6c5f4e3d2c1b0a918273645546372819a0b1c2d3e4f5a6b7c8d9".data,
        "0x52e1c7b49a38f5d2046e9c8b7a655443322110ffeeddccbbaa998877665544332211009988776655443322110aabbccddeeff00112233445566778899aabbccd1b".data,
        "0xc01efAaF7C5C61bEbFAeb358E1161b537b8bC0e0".data⟩⟩) =
      .ok (headerJVal
      ⟨1, "eip3009".data, "cronos-testnet".data,
       ⟨"0x7BD6Cd1A975438E510e1CC70a815042Bb357B131".data,
        "0x742d35Cc6634C0532925a3b844Bc9e7595f0bEb1".data,
        "1000000".data, 0, 1700000300,
        "0x9f2c4a0e8b7d6c5f4e3d2c1b0a918273645546372819a0b1c2d3e4f5a6b7c8d9".data,
        "0x52e1c7b49a38f5d2046e9c8b7a655443322110ffeeddccbbaa998877665544332211009988776655443322110aabbccddeeff00112233445566778899aabbccd1b".data,
        "0xc01efAaF7C5C61bEbFAeb358E1161b537b8bC0e0".data⟩⟩) :=
  c1_codec_round_trip _ (by decide)

/-- C4 counterexample: at a concrete signing environment with clock reading
1700000000 and `timeout_seconds = 300`, the produced credential (which
decodes faithfully) has `validBefore - validAfter = 1700000300`, not
`timeoutSeconds = 300`: the code sets `validAfter = 0` and
`validBefore = now + timeout`, so the difference is `issuedAt + timeout`. -/
theorem c4_counterexample :
    decodePaymentHeader (encodeHeader (buildPaymentHeader
      ⟨fun _ => "a".data, fun _ => "a".data, fun _ _ => "e".data,
       List.replicate 32 0, 1700000000⟩
      "x".data "k".data "b".data "c".data "5".data 300 none none)) =
      .ok (headerJVal (buildPaymentHeader
        ⟨fun _ => "a".data, fun _ => "a".data, fun _ _ => "e".data,
         List.replicate 32 0, 1700000000⟩
        "x".data "k".data "b".data "c".data "5".data 300 none none)) ∧
    (buildPaymentHeader
      ⟨fun _ => "a".data, fun _ => "a".data, fun _ _ => "e".data,
       List.replicate 32 0, 1700000000⟩
      "x".data "k".data "b".data "c".data "5".data 300 none
      none).payload.validBefore -
    (buildPaymentHeader
      ⟨fun _ => "a".data, fun _ => "a".data, fun _ _ => "e".data,
       List.replicate 32 0, 1700000000⟩
      "x".data "k".data "b".data "c".data "5".data 300 none
      none).payload.validAfter = 1700000300 ∧
    ¬ ((1700000300 : Int) = 300) :=
  ⟨decode_encode_header _ (by decide), by decide, by decide⟩

/-- C4 (amended): an approved, well-formed transfer produces a credential
that decodes to `scheme = "eip3009"` with `validAfter = 0` and
`validBefore = issuedAt + timeoutSeconds`, hence
`validBefore - validAfter = issuedAt + timeoutSeconds` (the claim's
`= timeoutSeconds` holds only for `issuedAt = 0`). -/
theorem c4_amended_validity_window (env : SignEnv)
    (network privateKey payTo asset amount : List Char) (t : Int)
    (tn tv : Option (List Char)) (h : PaymentHeader)
    (hh : h = buildPaymentHeader env network privateKey payTo asset amount
      t tn tv)
    (hck : ∀ s, SafeStr (env.toChecksumAddress s) = true)
    (hsig : ∀ d m, SafeStr (env.signTypedData d m) = true)
    (hnet : SafeStr network = true) (hamt : SafeStr amount = true)
    (hval : (pyToInt amount).isSome = true)
    (hrand : ∀ b ∈ env.urandom32, b < 256)
    (hnow : 0 ≤ env.now) (ht : 0 ≤ t) :
    generatePaymentHeader env network privateKey payTo asset amount t tn tv =
      .ok (encodeHeader h) ∧
    decodePaymentHeader (encodeHeader h) = .ok (headerJVal h) ∧
    h.scheme = "eip3009".data ∧
    h.payload.validAfter = 0 ∧
    h.payload.validBefore = env.now + t ∧
    h.payload.validBefore - h.payload.validAfter = env.now + t := by
  subst hh
  have hwf := buildPaymentHeader_wellFormed env network privateKey payTo
    asset amount t tn tv hck hsig hnet hamt hrand hnow ht
  refine ⟨?_, decode_encode_header _ hwf, rfl, rfl, rfl, ?_⟩
  · rw [generatePaymentHeader]
    cases hv : pyToInt amount with
    | none => rw [hv] at hval; simp at hval
    | some v => simp only [hv]
  · simp [buildPaymentHeader]

/-- C4 witness: a concrete approved transfer with a 300-second window. -/
theorem c4_witness :
    generatePaymentHeader
      ⟨fun _ => "a".data, fun _ => "a".data, fun _ _ => "e".data,
       List.replicate 32 0, 1700000000⟩
      "x".data "k".data "b".data "c".data "5".data 300 none none =
      .ok (encodeHeader (buildPaymentHeader
        ⟨fun _ => "a".data, fun _ => "a".data, fun _ _ => "e".data,
         List.replicate 32 0, 1700000000⟩
        "x".data "k".data "b".data "c".data "5".data 300 none none)) ∧
    decodePaymentHeader (encodeHeader (buildPaymentHeader
      ⟨fun _ => "a".data, fun _ => "a".data, fun _ _ => "e".data,
       List.replicate 32 0, 1700000000⟩
      "x".data "k".data "b".data "c".data "5".data 300 none none)) =
      .ok (headerJVal (buildPaymentHeader
        ⟨fun _ => "a".data, fun _ => "a".data, fun _ _ => "e".data,
         List.replicate 32 0, 1700000000⟩
        "x".data "k".data "b".data "c".data "5".data 300 none none)) ∧
    (buildPaymentHeader
      ⟨fun _ => "a".data, fun _ => "a".data, fun _ _ => "e".data,
       List.replicate 32 0, 1700000000⟩
      "x".data "k".data "b".data "c".data "5".data 300 none
      none).scheme = "eip3009".data ∧
    (buildPaymentHeader
      ⟨fun _ => "a".data, fun _ => "a".data, fun _ _ => "e".data,
       List.replicate 32 0, 1700000000⟩
      "x".data "k".data "b".data "c".data "5".data 300 none
      none).payload.validAfter = 0 ∧
    (buildPaymentHeader
      ⟨fun _ => "a".data, fun _ => "a".data, fun _ _ => "e".data,
       List.replicate 32 0, 1700000000⟩
      "x".data "k".data "b".data "c".data "5".data 300 none
      none).payload.validBefore = 1700000000 + 300 ∧
    (buildPaymentHeader
      ⟨fun _ => "a".data, fun _ => "a".data, fun _ _ => "e".data,
       List.replicate 32 0, 1700000000⟩
      "x".data "k".data "b".data "c".data "5".data 300 none
      none).payload.validBefore -
    (buildPaymentHeader
      ⟨fun _ => "a".data, fun _ => "a".data, fun _ _ => "e".data,
       List.replicate 32 0, 1700000000⟩
      "x".data "k".data "b".data "c".data "5".data 300 none
      none).payload.validAfter = 1700000000 + 300 :=
  c4_amended_validity_window
    ⟨fun _ => "a".data, fun _ => "a".data, fun _ _ => "e".data,
     List.replicate 32 0, 1700000000⟩
    "x".data "k".data "b".data "c".data "5".data 300 none none _ rfl
    (fun _ => (by decide : SafeStr "a".data = true))
    (fun _ _ => (by decide : SafeStr "e".data = true)) (by decide) (by decide)
    (by decide) (by decide) (by decide) (by decide)

/-- C5 counterexample: the base64 encoding of the empty JSON object (the
string `e30=`) lacks every required credential field, yet
`decode_payment_header` succeeds and returns the empty dictionary — the
claimed failure on absent required fields does not exist in the code. -/
theorem c5_counterexample :
    decodePaymentHeader "e30=".data = .ok (JVal.jobj []) ∧
    JVal.getField (JVal.jobj []) "x402Version".data = none := by
  exact ⟨by rfl, rfl⟩

/-- C5 (amended): decoding fails exactly when base64 decoding or JSON
parsing fails; no required-field validation is performed, so structurally
valid inputs missing every §3 field (such as `e30=`, the empty object)
still decode, while non-base64 group structure (`e30`) or non-JSON content
(`aGVsbG8=`, base64 of `hello`) fail. -/
theorem c5_decode_failure_conditions :
    (∀ s v, decodePaymentHeader s = .ok v ↔
      ∃ bytes chars, b64decode s = .ok bytes ∧ utf8Decode bytes = .ok chars ∧
        jsonLoads chars = .ok v) ∧
    decodePaymentHeader "e30=".data = .ok (JVal.jobj []) ∧
    (decodePaymentHeader "aGVsbG8=".data).isOk = false ∧
    (decodePaymentHeader "e30".data).isOk = false := by
  refine ⟨?_, by rfl, by rfl, by rfl⟩
  intro s v
  constructor
  · intro hd
    rw [decodePaymentHeader] at hd
    cases hb : b64decode s with
    | error e => rw [hb] at hd; exact absurd hd (by simp)
    | ok bytes =>
        rw [hb] at hd
        simp only [] at hd
        cases hu : utf8Decode bytes with
        | error e => rw [hu] at hd; exact absurd hd (by simp)
        | ok chars =>
            rw [hu] at hd
            simp only [] at hd
            exact ⟨bytes, chars, rfl, hu, hd⟩
  · rintro ⟨bytes, chars, hb, hu, hj⟩
    simp only [decodePaymentHeader, hb, hu]
    exact hj

/-- C5 witness: instantiating the failure-condition equivalence at the
empty-object input. -/
theorem c5_witness :
    ∃ bytes chars, b64decode "e30=".data = .ok bytes ∧
      utf8Decode bytes = .ok chars ∧ jsonLoads chars = .ok (JVal.jobj []) :=
  (c5_decode_failure_conditions.1 "e30=".data (JVal.jobj [])).mp
    c5_decode_failure_conditions.2.1

end AgentShield
